import Mathlib

/-!
# console-operator: synthesis of the console `ConfigMap`

A shallow embedding of `pkg/console/subresource/configmap/configmap.go`.

Conventions of the embedding.

* A Go `string` is a Lean `String`: the model covers the strings that are valid
  UTF-8.  Where the Go code works on bytes (`len`, slicing, percent-escaping) the
  model works on the UTF-8 bytes of the string, a byte being a `Nat` below 256.
* A Go `[]byte` is modelled by the string holding the same bytes; the conversions
  `[]byte(s)` and `string(b)` are the identity.
* A Go `map[string]string` is a `GoMap`, a finite map without any order.  The order in
  which a `range` statement visits the entries of a map is not fixed by Go; the functions
  that walk a map take that order as the parameter `rangeOrder`.
* Pointers to API objects are non-nil in the helper functions, which all dereference
  their argument at once; `DefaultConfigMap` takes its five pointers as `Option`
  values and a nil pointer dereference is the outcome `GoResult.panic`.  The elements
  of `availablePlugins` are non-nil.
* Logging is left out.
-/

namespace ConsoleOperator

/-! ## Go strings -/

/-- UTF-8 encoding of one character, as a list of bytes. -/
def utf8EncodeChar (c : Char) : List Nat :=
  let v := c.toNat
  if v < 0x80 then [v]
  else if v < 0x800 then [0xC0 + v / 0x40, 0x80 + v % 0x40]
  else if v < 0x10000 then [0xE0 + v / 0x1000, 0x80 + v / 0x40 % 0x40, 0x80 + v % 0x40]
  else [0xF0 + v / 0x40000, 0x80 + v / 0x1000 % 0x40, 0x80 + v / 0x40 % 0x40, 0x80 + v % 0x40]

/-- The bytes of a Go string. -/
def bytes (s : String) : List Nat :=
  s.data.flatMap utf8EncodeChar

/-- Go `len(s)`: the number of bytes of `s`. -/
def len (s : String) : Nat :=
  (bytes s).length

/-- Go `strings.HasPrefix(s, pre)`.  On valid UTF-8 the bytes of `pre` start the bytes of
`s` exactly when the characters of `pre` start the characters of `s`. -/
def HasPrefix (s pre : String) : Bool :=
  pre.data.isPrefixOf s.data

/-- Characters left after `n` bytes have been removed from the front. -/
def dropBytes : Nat → List Char → List Char
  | 0, cs => cs
  | _ + 1, [] => []
  | n + 1, c :: cs => dropBytes (n + 1 - (utf8EncodeChar c).length) cs

/-- Go `s[n:]` for an offset `n` that falls on a character boundary of `s`. -/
def sliceFrom (s : String) (n : Nat) : String :=
  ⟨dropBytes n s.data⟩

/-- Go `fmt.Sprintf("%d", n)` for a signed integer. -/
def decimal (n : Int) : String :=
  toString n

/-! ## Go maps -/

/-- Go `map[string]string` as a value: a finite map. -/
abbrev GoMap := Finmap (fun _ : String => String)

/-- Go index expression `m[k]`: the zero value `""` when the key is absent. -/
def GoMap.index (m : GoMap) (k : String) : String :=
  (m.lookup k).getD ""

/-- Go assignment `m[k] = v`. -/
def GoMap.set (m : GoMap) (k v : String) : GoMap :=
  Finmap.insert k v m

/-- Go `len(m)` for a map. -/
def GoMap.len (m : GoMap) : Nat :=
  m.keys.card

/-- The map whose `range` walk is the given list of entries. -/
def GoMap.ofEntries (entries : List (String × String)) : GoMap :=
  entries.foldl (fun m kv => m.set kv.1 kv.2) ∅

/-! ## `net/url`: the part of `URL.String` that the program reaches

The program only builds `url.URL` values with `Scheme`, `Host` and `Path` set; `Opaque`,
`User`, `RawPath`, `ForceQuery`, `RawQuery` and `Fragment` keep their zero value, and the
branches of `String` that test them are left out. -/

/-- The `encoding` modes of `net/url`. -/
inductive encoding where
  | encodePath
  | encodePathSegment
  | encodeHost
  | encodeZone
  | encodeUserPassword
  | encodeQueryComponent
  | encodeFragment
  deriving DecidableEq, Repr

/-- The byte of an ASCII character literal. -/
def byteOf (c : Char) : Nat := c.toNat

/-- Go `shouldEscape(c, mode)` of `net/url`. -/
def shouldEscape (c : Nat) (mode : encoding) : Bool :=
  if (byteOf 'a' ≤ c ∧ c ≤ byteOf 'z') ∨ (byteOf 'A' ≤ c ∧ c ≤ byteOf 'Z')
      ∨ (byteOf '0' ≤ c ∧ c ≤ byteOf '9') then false
  else if (mode = .encodeHost ∨ mode = .encodeZone) ∧
      c ∈ ['!', '$', '&', Char.ofNat 39, '(', ')', '*', '+', ',', ';', '=', ':', '[', ']', '<', '>', '"'].map byteOf
    then false
  else if c ∈ ['-', '_', '.', '~'].map byteOf then false
  else if c ∈ ['$', '&', '+', ',', '/', ':', ';', '=', '?', '@'].map byteOf then
    match mode with
    | .encodePath => c = byteOf '?'
    | .encodePathSegment =>
        c = byteOf '/' ∨ c = byteOf ';' ∨ c = byteOf ',' ∨ c = byteOf '?'
    | .encodeUserPassword =>
        c = byteOf '@' ∨ c = byteOf '/' ∨ c = byteOf '?' ∨ c = byteOf ':'
    | .encodeQueryComponent => true
    | .encodeFragment => false
    -- no case of the inner switch applies: control reaches the final `return true`
    | .encodeHost => true
    | .encodeZone => true
  else if mode = .encodeFragment ∧ c ∈ ['!', '(', ')', '*'].map byteOf then false
  else true

/-- The table `upperhex` of `net/url`, indexed. -/
def upperhex (i : Nat) : Char :=
  "0123456789ABCDEF".data.getD i '0'

/-- One byte of the second loop of `escape`. -/
def escapeByte (mode : encoding) (c : Nat) : List Char :=
  if c = byteOf ' ' ∧ mode = .encodeQueryComponent then ['+']
  else if shouldEscape c mode then ['%', upperhex (c / 16), upperhex (c % 16)]
  else [Char.ofNat c]

/-- Go `escape(s, mode)` of `net/url`. -/
def escape (s : String) (mode : encoding) : String :=
  let spaceCount := (bytes s).countP fun c =>
    shouldEscape c mode && decide (c = byteOf ' ' ∧ mode = .encodeQueryComponent)
  let hexCount := (bytes s).countP fun c =>
    shouldEscape c mode && !decide (c = byteOf ' ' ∧ mode = .encodeQueryComponent)
  if spaceCount = 0 ∧ hexCount = 0 then s
  else if hexCount = 0 then
    ⟨(bytes s).map fun c => if c = byteOf ' ' then '+' else Char.ofNat c⟩
  else ⟨(bytes s).flatMap (escapeByte mode)⟩

/-- Go `url.URL`, the fields the program sets. -/
structure URL where
  Scheme : String := ""
  Host : String := ""
  Path : String := ""
  deriving DecidableEq, Repr

/-- Go `(*URL).EscapedPath` for an empty `RawPath`. -/
def URL.EscapedPath (u : URL) : String :=
  if u.Path = "*" then "*" else escape u.Path .encodePath

/-- Go `(*URL).String` for a URL without opaque part, user, query and fragment.  The test
`path[0] != '/'` reads the first byte, which is `/` exactly when the first character is;
the last test is the one on the first path segment holding a colon. -/
def URL.String (u : URL) : String :=
  let buf := if u.Scheme ≠ "" then u.Scheme ++ ":" else ""
  let buf :=
    if u.Scheme ≠ "" ∨ u.Host ≠ "" then
      let buf := if u.Host ≠ "" ∨ u.Path ≠ "" then buf ++ "//" else buf
      if u.Host ≠ "" then buf ++ escape u.Host .encodeHost else buf
    else buf
  let path := u.EscapedPath
  let buf :=
    if path ≠ "" ∧ path.data.head? ≠ some '/' ∧ u.Host ≠ "" then buf ++ "/" else buf
  let buf :=
    if buf = "" ∧ (path.data.takeWhile (· ≠ '/')).contains ':' then buf ++ "./" else buf
  buf ++ path

/-! ## Kubernetes and OpenShift API objects, the fields the program reads or writes -/

/-- Kubernetes `metav1.OwnerReference`. -/
structure OwnerReference where
  APIVersion : String
  Kind : String
  Name : String
  UID : String
  Controller : Option Bool
  BlockOwnerDeletion : Option Bool
  deriving DecidableEq, Repr

/-- Kubernetes `metav1.ObjectMeta`, embedded in every API object. -/
structure ObjectMeta where
  Name : String := ""
  Annotations : GoMap := ∅
  OwnerReferences : List OwnerReference := []
  deriving DecidableEq

/-- Kubernetes `corev1.ConfigMap`. -/
structure ConfigMap extends ObjectMeta where
  Data : GoMap := ∅
  deriving DecidableEq

/-- OpenShift `v1alpha1.ConsolePluginService`. -/
structure ConsolePluginService where
  Name : String
  Namespace : String
  Port : Int
  BasePath : String
  deriving DecidableEq, Repr

/-- OpenShift `v1alpha1.ConsolePluginProxyServiceConfig`. -/
structure ConsolePluginProxyServiceConfig where
  Name : String
  Namespace : String
  Port : Int
  deriving DecidableEq, Repr

/-- OpenShift `v1alpha1.ConsolePluginProxy`; `ProxyType` is the Go field `Type`. -/
structure ConsolePluginProxy where
  ProxyType : String
  Alias : String
  Service : ConsolePluginProxyServiceConfig
  CACertificate : String
  Authorize : Bool
  deriving DecidableEq, Repr

/-- OpenShift `v1alpha1.ConsolePluginSpec`. -/
structure ConsolePluginSpec where
  Service : ConsolePluginService
  Proxy : List ConsolePluginProxy
  deriving DecidableEq, Repr

/-- OpenShift `v1alpha1.ConsolePlugin`. -/
structure ConsolePlugin extends ObjectMeta where
  Spec : ConsolePluginSpec
  deriving DecidableEq

/-- The `consoleserver.ProxyService` literal built by `getPluginsProxyServices`. -/
structure ProxyService where
  ConsoleAPIPath : String
  Endpoint : String
  CACertificate : String
  Authorize : Bool
  deriving DecidableEq, Repr

/-- Types that this package only hands on to the builder, and the Go `error` type. -/
structure ExternalTypes where
  DeveloperConsoleCatalogCustomization : Type
  ProjectAccess : Type
  QuickStarts : Type
  AddPage : Type
  Error : Type

/-- OpenShift `operatorv1.StatuspageProvider`. -/
structure StatuspageProvider where
  PageID : String
  deriving DecidableEq, Repr

/-- OpenShift `operatorv1.ConsoleProviders`; `Statuspage` is a pointer. -/
structure ConsoleProviders where
  Statuspage : Option StatuspageProvider
  deriving DecidableEq, Repr

/-- OpenShift `configv1.ConfigMapFileReference`. -/
structure ConfigMapFileReference where
  Name : String
  Key : String
  deriving DecidableEq, Repr

/-- OpenShift `operatorv1.ConsoleCustomization`. -/
structure ConsoleCustomization (T : ExternalTypes) where
  Brand : String
  DocumentationBaseURL : String
  CustomProductName : String
  CustomLogoFile : ConfigMapFileReference
  DeveloperCatalog : T.DeveloperConsoleCatalogCustomization
  ProjectAccess : T.ProjectAccess
  QuickStarts : T.QuickStarts
  AddPage : T.AddPage

/-- Kubernetes `runtime.RawExtension`. -/
structure RawExtension where
  Raw : String
  deriving DecidableEq, Repr

/-- OpenShift `operatorv1.ConsoleSpec`. -/
structure ConsoleSpec (T : ExternalTypes) where
  UnsupportedConfigOverrides : RawExtension
  Customization : ConsoleCustomization T
  Providers : ConsoleProviders

/-- OpenShift `operatorv1.Console`, the operator config. -/
structure Console (T : ExternalTypes) extends ObjectMeta where
  Spec : ConsoleSpec T

/-- OpenShift `configv1.ConsoleAuthentication`. -/
structure ConsoleAuthentication where
  LogoutRedirect : String
  deriving DecidableEq, Repr

/-- OpenShift `configv1.ConsoleSpec`. -/
structure ConfigConsoleSpec where
  Authentication : ConsoleAuthentication
  deriving DecidableEq, Repr

/-- OpenShift `configv1.Console`, the console config. -/
structure ConfigConsole extends ObjectMeta where
  Spec : ConfigConsoleSpec

/-- OpenShift `configv1.InfrastructureStatus`. -/
structure InfrastructureStatus where
  APIServerURL : String
  ControlPlaneTopology : String
  deriving DecidableEq, Repr

/-- OpenShift `configv1.Infrastructure`. -/
structure Infrastructure extends ObjectMeta where
  Status : InfrastructureStatus

/-- OpenShift `routev1.RouteSpec`. -/
structure RouteSpec where
  Host : String
  deriving DecidableEq, Repr

/-- OpenShift `routev1.Route`. -/
structure Route extends ObjectMeta where
  Spec : RouteSpec

/-- Outcome of a Go call: a run-time panic, or a return. -/
inductive GoResult (α : Type) where
  | panic
  | ret (a : α)
  deriving DecidableEq

/-! ## `configmap.go` -/

def consoleConfigYamlFile : String := "console-config.yaml"

def defaultLogoutURL : String := ""

def pluginProxyEndpoint : String := "/api/proxy/plugin/"

def telemetryAnnotationPrefix : String := "telemetry.console.openshift.io/"

/-- The order in which one `range` statement visits the entries of a map.  Go leaves it
unspecified; the program is given the order as a parameter. -/
abbrev RangeOrder := GoMap → List (String × String)

/-- The list `entries` visits every entry of `m` exactly once. -/
def IsRangeOf (entries : List (String × String)) (m : GoMap) : Prop :=
  (entries.map Prod.fst).Nodup ∧ GoMap.ofEntries entries = m

instance (entries : List (String × String)) (m : GoMap) : Decidable (IsRangeOf entries m) :=
  inferInstanceAs (Decidable (_ ∧ _))

def getApiUrl (infrastructureConfig : Option Infrastructure) : String :=
  match infrastructureConfig with
  | some infrastructureConfig => infrastructureConfig.Status.APIServerURL
  | none => ""

def statusPageId {T : ExternalTypes} (operatorConfig : Console T) : String :=
  match operatorConfig.Spec.Providers.Statuspage with
  | some statuspage => statuspage.PageID
  | none => ""

/-- The loop appends `"plugin__" + plugin.Name` for each plugin whose annotation
`api.PluginI18nAnnotation` is `"true"`; the constant is declared outside this file. -/
def pluginsWithI18nNamespace ( PluginI18nAnnotation : String)
    (availablePlugins : List ConsolePlugin) : List String :=
  availablePlugins.foldl
    (fun i18nNamespaces plugin =>
      if plugin.Annotations.index PluginI18nAnnotation = "true" then
        i18nNamespaces ++ ["plugin__" ++ plugin.Name]
      else i18nNamespaces)
    []

def getConsoleAPIPath (pluginName : String) (service : ConsolePluginProxy) : String :=
  pluginProxyEndpoint ++ pluginName ++ "/" ++ service.Alias ++ "/"

def getProxyServiceURL (service : ConsolePluginProxyServiceConfig) : String :=
  URL.String
    { Scheme := "https"
      Host := service.Name ++ "." ++ service.Namespace ++ ".svc.cluster.local:"
        ++ decimal service.Port }

def getServiceURL (plugin : ConsolePlugin) : String :=
  URL.String
    { Scheme := "https"
      Host := plugin.Spec.Service.Name ++ "." ++ plugin.Spec.Service.Namespace
        ++ ".svc.cluster.local:" ++ decimal plugin.Spec.Service.Port
      Path := plugin.Spec.Service.BasePath }

def getPluginsEndpointMap (availablePlugins : List ConsolePlugin) : GoMap :=
  availablePlugins.foldl
    (fun pluginsEndpointMap plugin => pluginsEndpointMap.set plugin.Name (getServiceURL plugin))
    ∅

/-- The constant `v1alpha1.ProxyTypeService` is declared outside this file. -/
def getPluginsProxyServices (ProxyTypeService : String)
    (availablePlugins : List ConsolePlugin) : List ProxyService :=
  availablePlugins.foldl
    (fun proxyServices plugin =>
      plugin.Spec.Proxy.foldl
        (fun proxyServices proxy =>
          if proxy.ProxyType = ProxyTypeService then
            proxyServices ++
              [{ ConsoleAPIPath := getConsoleAPIPath plugin.Name proxy
                 Endpoint := getProxyServiceURL proxy.Service
                 CACertificate := proxy.CACertificate
                 Authorize := proxy.Authorize }]
          else proxyServices)
        proxyServices)
    []

def GetTelemetryConfiguration {T : ExternalTypes} (rangeOrder : RangeOrder)
    (operatorConfig : Console T) : GoMap :=
  if operatorConfig.Annotations.len > 0 then
    (rangeOrder operatorConfig.Annotations).foldl
      (fun telemetry kv =>
        if HasPrefix kv.1 telemetryAnnotationPrefix ∧ len kv.1 > len telemetryAnnotationPrefix then
          telemetry.set (sliceFrom kv.1 (len telemetryAnnotationPrefix)) kv.2
        else telemetry)
      ∅
  else ∅

def isCustomRoute (OpenshiftConsoleCustomRouteName : String) (activeRoute : Route) : Bool :=
  activeRoute.Name = OpenshiftConsoleCustomRouteName

/-- Returns the first value that the walk over `Data` visits. -/
def extractYAML (rangeOrder : RangeOrder) (managedConfig : ConfigMap) : String :=
  match rangeOrder managedConfig.Data with
  | (_, v) :: _ => v
  | [] => ""

/-! ### The collaborators of `DefaultConfigMap`

The package `consoleserver` (builder and merger), the package `util`, the asset holding
the `ConfigMap` template and the constants of other files are not part of the sources at
hand.  `DefaultConfigMap` is stated over any value of them. -/

/-- One setter call on a `consoleserver.ConsoleServerCLIConfigBuilder`. -/
inductive BuilderCall (T : ExternalTypes) where
  | Host (host : String)
  | LogoutURL (logoutRedirect : String)
  | Brand (brand : String)
  | DocURL (docURL : String)
  | OAuthServingCert (useDefaultCAFile : Bool)
  | APIServerURL (apiServerURL : String)
  | TopologyMode (topologyMode : String)
  | Plugins (plugins : GoMap)
  | I18nNamespaces (i18nNamespaces : List String)
  | Proxy (proxyServices : List ProxyService)
  | CustomLogoFile (customLogoFile : String)
  | CustomProductName (customProductName : String)
  | CustomDeveloperCatalog (developerCatalog : T.DeveloperConsoleCatalogCustomization)
  | ProjectAccess (projectAccess : T.ProjectAccess)
  | QuickStarts (quickStarts : T.QuickStarts)
  | CustomHostnameRedirectPort (customHostnameRedirectPort : Bool)
  | AddPage (addPage : T.AddPage)
  | StatusPageID (statusPageID : String)
  | InactivityTimeout (timeout : Int)
  | ManagedClusterConfigFile (file : String)
  | TelemetryConfiguration (telemetry : GoMap)
  | ReleaseVersion

/-- What `DefaultConfigMap` uses and this file does not declare.  A builder is known by
the setter calls made on a fresh one, in order; `ConfigYAML` renders it.  `Merge` takes
its layers in the order of the call.  `AddOwnerRef` receives the resource as a
`metav1.Object`, the interface of the metadata accessors, and so acts on the `ObjectMeta`
part of it. -/
structure Collaborators (T : ExternalTypes) where
  PluginI18nAnnotation : String
  OpenshiftConsoleCustomRouteName : String
  OpenShiftConsoleConfigMapName : String
  DEFAULT_BRAND : String
  DEFAULT_DOC_URL : String
  ProxyTypeService : String
  ConfigYAML : List (BuilderCall T) → Except T.Error String
  Merge : List String → Except T.Error String
  ConsoleConfigMapStub : ConfigMap
  OwnerRefFrom : Console T → Option OwnerReference
  AddOwnerRef : ObjectMeta → Option OwnerReference → ObjectMeta

def Stub {T : ExternalTypes} (D : Collaborators T) : ConfigMap :=
  let configMap := D.ConsoleConfigMapStub
  { configMap with Name := D.OpenShiftConsoleConfigMapName }

/-- The setter chain on `defaultBuilder`, lines 56 to 63. -/
def defaultBuilderCalls {T : ExternalTypes} (D : Collaborators T)
    (infrastructureConfig : Option Infrastructure) (activeConsoleRoute : Route)
    (useDefaultCAFile : Bool) (inactivityTimeoutSeconds : Int) : List (BuilderCall T) :=
  [ .Host activeConsoleRoute.Spec.Host,
    .LogoutURL defaultLogoutURL,
    .Brand D.DEFAULT_BRAND,
    .DocURL D.DEFAULT_DOC_URL,
    .OAuthServingCert useDefaultCAFile,
    .APIServerURL (getApiUrl infrastructureConfig),
    .InactivityTimeout inactivityTimeoutSeconds,
    .ReleaseVersion ]

/-- The setter chain on `userDefinedBuilder`, lines 72 to 93. -/
def userDefinedBuilderCalls {T : ExternalTypes} (D : Collaborators T) (rangeOrder : RangeOrder)
    (operatorConfig : Console T) (consoleConfig : ConfigConsole)
    (infrastructureConfig : Infrastructure) (activeConsoleRoute : Route)
    (useDefaultCAFile : Bool) (inactivityTimeoutSeconds : Int)
    (availablePlugins : List ConsolePlugin) (managedClusterConfigFile : String) :
    List (BuilderCall T) :=
  [ .Host activeConsoleRoute.Spec.Host,
    .LogoutURL consoleConfig.Spec.Authentication.LogoutRedirect,
    .Brand operatorConfig.Spec.Customization.Brand,
    .DocURL operatorConfig.Spec.Customization.DocumentationBaseURL,
    .OAuthServingCert useDefaultCAFile,
    .APIServerURL (getApiUrl (some infrastructureConfig)),
    .TopologyMode infrastructureConfig.Status.ControlPlaneTopology,
    .Plugins (getPluginsEndpointMap availablePlugins),
    .I18nNamespaces (pluginsWithI18nNamespace D.PluginI18nAnnotation availablePlugins),
    .Proxy (getPluginsProxyServices D.ProxyTypeService availablePlugins),
    .CustomLogoFile operatorConfig.Spec.Customization.CustomLogoFile.Key,
    .CustomProductName operatorConfig.Spec.Customization.CustomProductName,
    .CustomDeveloperCatalog operatorConfig.Spec.Customization.DeveloperCatalog,
    .ProjectAccess operatorConfig.Spec.Customization.ProjectAccess,
    .QuickStarts operatorConfig.Spec.Customization.QuickStarts,
    .CustomHostnameRedirectPort (isCustomRoute D.OpenshiftConsoleCustomRouteName activeConsoleRoute),
    .AddPage operatorConfig.Spec.Customization.AddPage,
    .StatusPageID (statusPageId operatorConfig),
    .InactivityTimeout inactivityTimeoutSeconds,
    .ManagedClusterConfigFile managedClusterConfigFile,
    .TelemetryConfiguration (GetTelemetryConfiguration rangeOrder operatorConfig),
    .ReleaseVersion ]

/-- Returns `(consoleConfigMap, unsupportedOverridesHaveMerged, err)`.  The pointers are
dereferenced in the order of the source: the route at line 56, the managed config at
line 70, then console config, operator config and infrastructure config in the user
chain. -/
def DefaultConfigMap {T : ExternalTypes} (D : Collaborators T) (rangeOrder : RangeOrder)
    (operatorConfig : Option (Console T)) (consoleConfig : Option ConfigConsole)
    (managedConfig : Option ConfigMap) (infrastructureConfig : Option Infrastructure)
    (activeConsoleRoute : Option Route) (useDefaultCAFile : Bool)
    (inactivityTimeoutSeconds : Int) (availablePlugins : List ConsolePlugin)
    (managedClusterConfigFile : String) :
    GoResult (Option ConfigMap × Bool × Option T.Error) :=
  match activeConsoleRoute with
  | none => .panic
  | some route =>
    match D.ConfigYAML (defaultBuilderCalls D infrastructureConfig route useDefaultCAFile
        inactivityTimeoutSeconds) with
    | .error err => .ret (none, false, some err)
    | .ok defaultConfig =>
      match managedConfig, consoleConfig, operatorConfig, infrastructureConfig with
      | some managed, some console, some operator, some infrastructure =>
        let extractedManagedConfig := extractYAML rangeOrder managed
        match D.ConfigYAML (userDefinedBuilderCalls D rangeOrder operator console infrastructure
            route useDefaultCAFile inactivityTimeoutSeconds availablePlugins
            managedClusterConfigFile) with
        | .error err => .ret (none, false, some err)
        | .ok userDefinedConfig =>
          let unsupportedConfigOverride := operator.Spec.UnsupportedConfigOverrides.Raw
          let willMergeConfigOverrides := len unsupportedConfigOverride != 0
          match D.Merge [defaultConfig, extractedManagedConfig, userDefinedConfig,
              unsupportedConfigOverride] with
          | .error err => .ret (none, false, some err)
          | .ok mergedConfig =>
            let configMap := Stub D
            let configMap := { configMap with Data := (∅ : GoMap).set consoleConfigYamlFile mergedConfig }
            let configMap :=
              { configMap with
                toObjectMeta := D.AddOwnerRef configMap.toObjectMeta (D.OwnerRefFrom operator) }
            .ret (some configMap, willMergeConfigOverrides, none)
      | _, _, _, _ => .panic

/-! ## Predicates and auxiliary functions of the statements -/

/-- The guard of line 165. -/
def isTelemetryKey (k : String) : Prop :=
  HasPrefix k telemetryAnnotationPrefix ∧ len k > len telemetryAnnotationPrefix

instance (k : String) : Decidable (isTelemetryKey k) :=
  inferInstanceAs (Decidable (_ ∧ _))

/-- The entry that one annotation contributes, if any. -/
def telemetryEntry (kv : String × String) : Option (String × String) :=
  if isTelemetryKey kv.1 then some (sliceFrom kv.1 (len telemetryAnnotationPrefix), kv.2)
  else none

/-- No byte of `s` is rewritten by host escaping. -/
def hostSafe (s : String) : Prop :=
  ∀ b ∈ bytes s, shouldEscape b .encodeHost = false

instance (s : String) : Decidable (hostSafe s) :=
  inferInstanceAs (Decidable (∀ b ∈ bytes s, shouldEscape b .encodeHost = false))

/-- No byte of `s` is rewritten by path escaping. -/
def pathSafe (s : String) : Prop :=
  ∀ b ∈ bytes s, shouldEscape b .encodePath = false

instance (s : String) : Decidable (pathSafe s) :=
  inferInstanceAs (Decidable (∀ b ∈ bytes s, shouldEscape b .encodePath = false))

/-- All entries of the map hold the same value.  A map with at most one key is such a
map; so is a map with several keys that all hold the same text. -/
def SingleValued (m : GoMap) : Prop :=
  ∀ k₁ k₂ v₁ v₂, m.lookup k₁ = some v₁ → m.lookup k₂ = some v₂ → v₁ = v₂

/-- The descriptor that line 148 builds for one proxy rule. -/
def proxyServiceOf (plugin : ConsolePlugin) (proxy : ConsolePluginProxy) : ProxyService :=
  { ConsoleAPIPath := getConsoleAPIPath plugin.Name proxy
    Endpoint := getProxyServiceURL proxy.Service
    CACertificate := proxy.CACertificate
    Authorize := proxy.Authorize }

/-! ## Concrete inputs for the instances and counterexamples -/

/-- A plugin named `p1` served by `svc` in `ns` on port 443 under the given base path. -/
def servicePlugin (basePath : String) : ConsolePlugin :=
  { Name := "p1"
    Spec := { Service := { Name := "svc", Namespace := "ns", Port := 443, BasePath := basePath }
              Proxy := [] } }

/-- A plugin with the given name and annotations. -/
def i18nPlugin (name : String) (annotations : List (String × String)) : ConsolePlugin :=
  { Name := name
    Annotations := GoMap.ofEntries annotations
    Spec := { Service := { Name := "svc", Namespace := "ns", Port := 443, BasePath := "/" }
              Proxy := [] } }

/-- A plugin with the given name, served by the given service. -/
def endpointPlugin (name service : String) : ConsolePlugin :=
  { Name := name
    Spec := { Service := { Name := service, Namespace := "ns", Port := 443, BasePath := "/api" }
              Proxy := [] } }

/-- A plugin with one proxy rule of type `Service`, alias `backend`, and one rule of
another type. -/
def proxyPlugin (name serviceName : String) : ConsolePlugin :=
  { Name := name
    Spec :=
      { Service := { Name := "svc", Namespace := "ns", Port := 443, BasePath := "/" }
        Proxy :=
          [ { ProxyType := "Service", Alias := "backend",
              Service := { Name := serviceName, Namespace := "ns", Port := 8443 },
              CACertificate := "ca", Authorize := true },
            { ProxyType := "Other", Alias := "skipped",
              Service := { Name := serviceName, Namespace := "ns", Port := 8443 },
              CACertificate := "", Authorize := false } ] } }

/-- Instance of the external types used for concrete inputs. -/
abbrev plainTypes : ExternalTypes :=
  { DeveloperConsoleCatalogCustomization := Unit
    ProjectAccess := Unit
    QuickStarts := Unit
    AddPage := Unit
    Error := String }

/-- An operator config with the given annotations and override bytes. -/
def operatorWith (annotations : List (String × String)) (raw : String) : Console plainTypes :=
  { Name := "cluster"
    Annotations := GoMap.ofEntries annotations
    Spec :=
      { UnsupportedConfigOverrides := { Raw := raw }
        Customization :=
          { Brand := "", DocumentationBaseURL := "", CustomProductName := "",
            CustomLogoFile := { Name := "", Key := "" },
            DeveloperCatalog := (), ProjectAccess := (), QuickStarts := (), AddPage := () }
        Providers := { Statuspage := none } } }

/-- A walk that visits the given entries whatever the map. -/
def fixedOrder (entries : List (String × String)) : RangeOrder :=
  fun _ => entries

/-- Collaborators with the given renderer and merger, an empty template and no owner
reference. -/
def plainCollaborators (render : List (BuilderCall plainTypes) → Except String String)
    (merge : List String → Except String String) : Collaborators plainTypes :=
  { PluginI18nAnnotation := "console.openshift.io/use-i18n"
    OpenshiftConsoleCustomRouteName := "console-custom"
    OpenShiftConsoleConfigMapName := "console-config"
    DEFAULT_BRAND := "okd"
    DEFAULT_DOC_URL := "https://docs.okd.io/latest/"
    ProxyTypeService := "Service"
    ConfigYAML := render
    Merge := merge
    ConsoleConfigMapStub := {}
    OwnerRefFrom := fun _ => none
    AddOwnerRef := fun m _ => m }

/-- A route named `console` with the given host. -/
def routeWith (host : String) : Route :=
  { Name := "console", Spec := { Host := host } }

/-- A console config with the given logout redirect. -/
def consoleWith (logoutRedirect : String) : ConfigConsole :=
  { Name := "cluster", Spec := { Authentication := { LogoutRedirect := logoutRedirect } } }

/-- An infrastructure config with the given control plane topology. -/
def infrastructureWith (topology : String) : Infrastructure :=
  { Name := "cluster"
    Status := { APIServerURL := "https://api.example.com:6443", ControlPlaneTopology := topology } }

/-- A managed config whose `Data` holds the given entries. -/
def managedWith (entries : List (String × String)) : ConfigMap :=
  { Name := "console-config", Data := GoMap.ofEntries entries }

/-- A walk that visits `entries` on the map they make up and nothing on any other map. -/
def orderOf (entries : List (String × String)) : RangeOrder :=
  fun m => if m = GoMap.ofEntries entries then entries else []

/-- A walk that visits `first` on the map it makes up, `second` on the map it makes up,
and nothing on any other map. -/
def orderOfTwo (first second : List (String × String)) : RangeOrder :=
  fun m =>
    if m = GoMap.ofEntries first then first
    else if m = GoMap.ofEntries second then second
    else []

/-- A renderer that fails on an empty host, as the builder is said to. -/
def renderHost (calls : List (BuilderCall plainTypes)) : Except String String :=
  match calls with
  | .Host "" :: _ => .error "host is required"
  | .Host host :: rest => .ok ("host: " ++ host ++ " calls: " ++ toString rest.length ++ "\n")
  | _ => .error "no host"

/-- A merger that concatenates its layers. -/
def mergeJoin (layers : List String) : Except String String :=
  .ok (String.join layers)

/-- A renderer that always succeeds with the empty document. -/
def renderEmpty (_ : List (BuilderCall plainTypes)) : Except String String :=
  .ok ""

/-! ## Lemmas on strings -/

theorem utf8EncodeChar_length_pos (c : Char) : 0 < (utf8EncodeChar c).length := by
  unfold utf8EncodeChar
  simp only []
  split_ifs <;> simp

/-- The encoding has the length that the Lean library gives for the character. -/
theorem utf8EncodeChar_length (c : Char) : (utf8EncodeChar c).length = c.utf8Size := by
  unfold utf8EncodeChar Char.utf8Size
  have h1 : (c.val ≤ UInt32.ofNatCore 127 (by decide)) ↔ c.toNat < 0x80 := by
    show c.val.toNat ≤ 127 ↔ c.val.toNat < 128
    omega
  have h2 : (c.val ≤ UInt32.ofNatCore 2047 (by decide)) ↔ c.toNat < 0x800 := by
    show c.val.toNat ≤ 2047 ↔ c.val.toNat < 2048
    omega
  have h3 : (c.val ≤ UInt32.ofNatCore 65535 (by decide)) ↔ c.toNat < 0x10000 := by
    show c.val.toNat ≤ 65535 ↔ c.val.toNat < 65536
    omega
  simp only [h1, h2, h3]
  split_ifs <;> rfl

/-- The byte length of the model is the UTF-8 size of the string. -/
theorem len_eq_utf8ByteSize (s : String) : len s = s.utf8ByteSize := by
  rcases s with ⟨cs⟩
  simp only [len, bytes, String.utf8ByteSize]
  induction cs with
  | nil => rfl
  | cons c cs ih =>
    simp only [List.flatMap_cons, List.length_append, String.utf8ByteSize.go, ih,
      utf8EncodeChar_length]
    omega

theorem bytes_append (a b : String) : bytes (a ++ b) = bytes a ++ bytes b := by
  simp [bytes, String.data_append, List.flatMap_append]

theorem len_append (a b : String) : len (a ++ b) = len a + len b := by
  simp [len, bytes_append]

theorem bytes_eq_nil_iff (s : String) : bytes s = [] ↔ s = "" := by
  constructor
  · intro h
    rcases s with ⟨cs⟩
    cases cs with
    | nil => rfl
    | cons c cs =>
      exfalso
      have hc := utf8EncodeChar_length_pos c
      simp [bytes, List.flatMap_cons] at h
      rw [h.1] at hc
      simp at hc
  · rintro rfl
    rfl

theorem len_eq_zero_iff (s : String) : len s = 0 ↔ s = "" := by
  rw [len, List.length_eq_zero, bytes_eq_nil_iff]

theorem dropBytes_append (p r : List Char) :
    dropBytes (p.flatMap utf8EncodeChar).length (p ++ r) = r := by
  induction p with
  | nil => cases r <;> rfl
  | cons c p ih =>
    have hc := utf8EncodeChar_length_pos c
    obtain ⟨n, hn⟩ : ∃ n, ((c :: p).flatMap utf8EncodeChar).length = n + 1 :=
      ⟨(utf8EncodeChar c).length - 1 + (p.flatMap utf8EncodeChar).length, by
        simp [List.flatMap_cons]; omega⟩
    rw [hn, List.cons_append, dropBytes, ← hn]
    simp only [List.flatMap_cons, List.length_append, Nat.add_sub_cancel_left]
    exact ih

theorem sliceFrom_append (p r : String) : sliceFrom (p ++ r) (len p) = r := by
  rcases r with ⟨rs⟩
  simp only [sliceFrom, len, bytes, String.data_append]
  rw [dropBytes_append]

theorem HasPrefix_iff (s pre : String) : HasPrefix s pre = true ↔ ∃ r, s = pre ++ r := by
  unfold HasPrefix
  rw [List.isPrefixOf_iff_prefix]
  constructor
  · rintro ⟨t, ht⟩
    exact ⟨⟨t⟩, String.ext (by simp [String.data_append, ht])⟩
  · rintro ⟨r, rfl⟩
    exact ⟨r.data, by simp [String.data_append]⟩

theorem append_right_injective (p a b : String) (h : p ++ a = p ++ b) : a = b := by
  have := congrArg String.data h
  simp [String.data_append] at this
  exact String.ext this

/-! ## Lemmas on maps -/

theorem GoMap.keys_set (m : GoMap) (k v : String) : (m.set k v).keys = insert k m.keys := by
  ext a
  simp [GoMap.set, Finmap.mem_keys, Finmap.mem_insert]

theorem GoMap.lookup_set_self (m : GoMap) (k v : String) : (m.set k v).lookup k = some v :=
  Finmap.lookup_insert m

theorem GoMap.lookup_set_of_ne (m : GoMap) {k k' : String} (v : String) (h : k' ≠ k) :
    (m.set k v).lookup k' = m.lookup k' :=
  Finmap.lookup_insert_of_ne m h

theorem lookup_foldl_set_of_not_mem (l : List (String × String)) (acc : GoMap) (k : String)
    (h : k ∉ l.map Prod.fst) :
    (l.foldl (fun m kv => m.set kv.1 kv.2) acc).lookup k = acc.lookup k := by
  induction l generalizing acc with
  | nil => rfl
  | cons kv l ih =>
    simp only [List.map_cons, List.mem_cons, not_or] at h
    rw [List.foldl_cons, ih _ h.2, GoMap.lookup_set_of_ne _ _ h.1]

theorem lookup_foldl_set_of_mem (l : List (String × String)) (acc : GoMap) (k v : String)
    (hnd : (l.map Prod.fst).Nodup) (h : (k, v) ∈ l) :
    (l.foldl (fun m kv => m.set kv.1 kv.2) acc).lookup k = some v := by
  induction l generalizing acc with
  | nil => simp at h
  | cons kv l ih =>
    simp only [List.map_cons, List.nodup_cons] at hnd
    rw [List.foldl_cons]
    rcases List.mem_cons.1 h with rfl | h
    · rw [lookup_foldl_set_of_not_mem _ _ _ hnd.1, GoMap.lookup_set_self]
    · exact ih _ hnd.2 h

theorem keys_foldl_set (l : List (String × String)) (acc : GoMap) :
    (l.foldl (fun m kv => m.set kv.1 kv.2) acc).keys = acc.keys ∪ (l.map Prod.fst).toFinset := by
  induction l generalizing acc with
  | nil => simp
  | cons kv l ih =>
    rw [List.foldl_cons, ih, GoMap.keys_set]
    ext a
    simp only [List.map_cons, List.toFinset_cons, Finset.mem_union, Finset.mem_insert]
    tauto

theorem GoMap.keys_ofEntries (l : List (String × String)) :
    (GoMap.ofEntries l).keys = (l.map Prod.fst).toFinset := by
  simp [GoMap.ofEntries, keys_foldl_set]

theorem GoMap.len_ofEntries (l : List (String × String)) (hnd : (l.map Prod.fst).Nodup) :
    (GoMap.ofEntries l).len = l.length := by
  rw [GoMap.len, GoMap.keys_ofEntries, List.toFinset_card_of_nodup hnd, List.length_map]

theorem GoMap.lookup_ofEntries_iff (l : List (String × String)) (hnd : (l.map Prod.fst).Nodup)
    (k v : String) : (GoMap.ofEntries l).lookup k = some v ↔ (k, v) ∈ l := by
  constructor
  · intro h
    by_cases hk : k ∈ l.map Prod.fst
    · obtain ⟨⟨k', v'⟩, hmem, rfl⟩ := List.mem_map.1 hk
      have h2 : (GoMap.ofEntries l).lookup k' = some v' := lookup_foldl_set_of_mem l ∅ k' v' hnd hmem
      simp only at h
      rw [h2] at h
      cases h
      exact hmem
    · have h2 : (GoMap.ofEntries l).lookup k = none := by
        rw [GoMap.ofEntries, lookup_foldl_set_of_not_mem l ∅ k hk]; rfl
      rw [h2] at h
      cases h
  · exact lookup_foldl_set_of_mem l ∅ k v hnd

theorem IsRangeOf.mem_iff {l : List (String × String)} {m : GoMap} (h : IsRangeOf l m)
    (k v : String) : (k, v) ∈ l ↔ m.lookup k = some v := by
  rw [← h.2, GoMap.lookup_ofEntries_iff l h.1]

theorem IsRangeOf.length_eq {l : List (String × String)} {m : GoMap} (h : IsRangeOf l m) :
    l.length = m.len := by
  rw [← h.2, GoMap.len_ofEntries l h.1]

/-! ## Lemmas on `GetTelemetryConfiguration` -/

theorem isTelemetryKey_iff (k : String) :
    isTelemetryKey k ↔ ∃ r, r ≠ "" ∧ k = telemetryAnnotationPrefix ++ r := by
  unfold isTelemetryKey
  rw [HasPrefix_iff]
  constructor
  · rintro ⟨⟨r, rfl⟩, hlen⟩
    refine ⟨r, ?_, rfl⟩
    rintro rfl
    rw [len_append] at hlen
    have : len "" = 0 := rfl
    omega
  · rintro ⟨r, hr, rfl⟩
    refine ⟨⟨r, rfl⟩, ?_⟩
    rw [len_append]
    have : len r ≠ 0 := fun h => hr ((len_eq_zero_iff r).1 h)
    omega

theorem telemetryEntry_eq_some_iff (kv : String × String) (r v : String) :
    telemetryEntry kv = some (r, v) ↔
      r ≠ "" ∧ kv = (telemetryAnnotationPrefix ++ r, v) := by
  unfold telemetryEntry
  constructor
  · intro h
    split_ifs at h with hk
    obtain ⟨r', hr', hkv⟩ := (isTelemetryKey_iff _).1 hk
    rw [hkv, sliceFrom_append] at h
    simp only [Option.some.injEq, Prod.mk.injEq] at h
    obtain ⟨rfl, rfl⟩ := h
    exact ⟨hr', Prod.ext hkv rfl⟩
  · rintro ⟨hr, rfl⟩
    rw [if_pos ((isTelemetryKey_iff _).2 ⟨r, hr, rfl⟩), sliceFrom_append]

theorem foldl_telemetry_eq (l : List (String × String)) (acc : GoMap) :
    l.foldl
      (fun telemetry kv =>
        if HasPrefix kv.1 telemetryAnnotationPrefix ∧ len kv.1 > len telemetryAnnotationPrefix then
          telemetry.set (sliceFrom kv.1 (len telemetryAnnotationPrefix)) kv.2
        else telemetry) acc
    = (l.filterMap telemetryEntry).foldl (fun m kv => m.set kv.1 kv.2) acc := by
  induction l generalizing acc with
  | nil => rfl
  | cons kv l ih =>
    rw [List.foldl_cons, ih]
    by_cases hk : isTelemetryKey kv.1
    · have : telemetryEntry kv = some (sliceFrom kv.1 (len telemetryAnnotationPrefix), kv.2) := by
        simp [telemetryEntry, hk]
      have hk' : HasPrefix kv.1 telemetryAnnotationPrefix = true ∧
          len kv.1 > len telemetryAnnotationPrefix := hk
      rw [List.filterMap_cons_some this, List.foldl_cons, if_pos hk']
    · have : telemetryEntry kv = none := by simp [telemetryEntry, hk]
      have hk' : ¬ (HasPrefix kv.1 telemetryAnnotationPrefix = true ∧
          len kv.1 > len telemetryAnnotationPrefix) := hk
      rw [List.filterMap_cons_none this, if_neg hk']

theorem mem_filterMap_telemetryEntry (l : List (String × String)) (r v : String) :
    (r, v) ∈ l.filterMap telemetryEntry ↔ r ≠ "" ∧ (telemetryAnnotationPrefix ++ r, v) ∈ l := by
  rw [List.mem_filterMap]
  constructor
  · rintro ⟨kv, hmem, h⟩
    obtain ⟨hr, rfl⟩ := (telemetryEntry_eq_some_iff kv r v).1 h
    exact ⟨hr, hmem⟩
  · rintro ⟨hr, hmem⟩
    exact ⟨_, hmem, (telemetryEntry_eq_some_iff _ r v).2 ⟨hr, rfl⟩⟩

theorem nodup_keys_filterMap_telemetryEntry (l : List (String × String))
    (hnd : (l.map Prod.fst).Nodup) : ((l.filterMap telemetryEntry).map Prod.fst).Nodup := by
  induction l with
  | nil => simp
  | cons kv l ih =>
    simp only [List.map_cons, List.nodup_cons] at hnd
    cases hg : telemetryEntry kv with
    | none => rw [List.filterMap_cons_none hg]; exact ih hnd.2
    | some e =>
      obtain ⟨r, v⟩ := e
      rw [List.filterMap_cons_some hg, List.map_cons, List.nodup_cons]
      refine ⟨?_, ih hnd.2⟩
      intro hmem
      obtain ⟨⟨r', v'⟩, hmem', hr'⟩ := List.mem_map.1 hmem
      simp only at hr'
      subst hr'
      obtain ⟨_, rfl⟩ := (telemetryEntry_eq_some_iff kv r' v).1 hg
      have := ((mem_filterMap_telemetryEntry l r' v').1 hmem').2
      exact hnd.1 (List.mem_map.2 ⟨_, this, rfl⟩)

theorem GetTelemetryConfiguration_eq {T : ExternalTypes} (rangeOrder : RangeOrder)
    (operatorConfig : Console T)
    (h : IsRangeOf (rangeOrder operatorConfig.Annotations) operatorConfig.Annotations) :
    GetTelemetryConfiguration rangeOrder operatorConfig
      = GoMap.ofEntries ((rangeOrder operatorConfig.Annotations).filterMap telemetryEntry) := by
  unfold GetTelemetryConfiguration
  split_ifs with hlen
  · rw [foldl_telemetry_eq]; rfl
  · have h0 : (rangeOrder operatorConfig.Annotations).length = 0 := by
      rw [h.length_eq]; omega
    rw [List.length_eq_zero.1 h0]
    rfl

theorem lookup_GetTelemetryConfiguration {T : ExternalTypes} (rangeOrder : RangeOrder)
    (operatorConfig : Console T)
    (h : IsRangeOf (rangeOrder operatorConfig.Annotations) operatorConfig.Annotations)
    (r v : String) :
    (GetTelemetryConfiguration rangeOrder operatorConfig).lookup r = some v ↔
      r ≠ "" ∧ operatorConfig.Annotations.lookup (telemetryAnnotationPrefix ++ r) = some v := by
  rw [GetTelemetryConfiguration_eq rangeOrder operatorConfig h,
    GoMap.lookup_ofEntries_iff _ (nodup_keys_filterMap_telemetryEntry _ h.1),
    mem_filterMap_telemetryEntry, h.mem_iff]

/-! ## Lemmas on `net/url` -/

theorem append_ne_empty_left (a b : String) (h : a ≠ "") : a ++ b ≠ "" := by
  intro hab
  apply h
  have := congrArg String.data hab
  simp [String.data_append] at this
  exact String.ext this.1

theorem append_ne_empty_right (a b : String) (h : b ≠ "") : a ++ b ≠ "" := by
  intro hab
  apply h
  have := congrArg String.data hab
  simp [String.data_append] at this
  exact String.ext this.2

theorem escape_eq_self (s : String) (mode : encoding)
    (h : ∀ b ∈ bytes s, shouldEscape b mode = false) : escape s mode = s := by
  unfold escape
  have h1 : ((bytes s).countP fun c =>
      shouldEscape c mode && decide (c = byteOf ' ' ∧ mode = .encodeQueryComponent)) = 0 := by
    rw [List.countP_eq_zero]
    intro b hb
    simp [h b hb]
  have h2 : ((bytes s).countP fun c =>
      shouldEscape c mode && !decide (c = byteOf ' ' ∧ mode = .encodeQueryComponent)) = 0 := by
    rw [List.countP_eq_zero]
    intro b hb
    simp [h b hb]
  simp only [h1, h2, and_self, if_true]

theorem forall_mem_byteOf_lt (l : List Char) (hl : ∀ x ∈ l, x.toNat < 128) (c : Nat)
    (h : 128 ≤ c) : c ∉ l.map byteOf := by
  intro hmem
  obtain ⟨x, hx, rfl⟩ := List.mem_map.1 hmem
  have := hl x hx
  unfold byteOf at h
  omega

/-- Every byte outside ASCII is escaped, in every mode: the bytes that `escape` copies are
ASCII characters. -/
theorem shouldEscape_of_not_ascii (c : Nat) (mode : encoding) (h : 128 ≤ c) :
    shouldEscape c mode = true := by
  unfold shouldEscape
  have h1 : ¬ ((byteOf 'a' ≤ c ∧ c ≤ byteOf 'z') ∨ (byteOf 'A' ≤ c ∧ c ≤ byteOf 'Z')
      ∨ (byteOf '0' ≤ c ∧ c ≤ byteOf '9')) := by
    have ez : byteOf 'z' = 122 := rfl
    have eZ : byteOf 'Z' = 90 := rfl
    have e9 : byteOf '9' = 57 := rfl
    omega
  rw [if_neg h1, if_neg (fun hh => forall_mem_byteOf_lt _ (by decide) c h hh.2),
    if_neg (forall_mem_byteOf_lt _ (by decide) c h),
    if_neg (forall_mem_byteOf_lt _ (by decide) c h),
    if_neg (fun hh => forall_mem_byteOf_lt _ (by decide) c h hh.2)]

/-- `URL.String` on the URLs that the program builds: scheme `https` and a host. -/
theorem URL_String_https (host path : String) (hh : host ≠ "") :
    URL.String { Scheme := "https", Host := host, Path := path } =
      "https://" ++ escape host .encodeHost ++
        (if (URL.EscapedPath { Scheme := "https", Host := host, Path := path }) ≠ "" ∧
            (URL.EscapedPath { Scheme := "https", Host := host, Path := path }).data.head? ≠ some '/'
          then "/" else "") ++
        URL.EscapedPath { Scheme := "https", Host := host, Path := path } := by
  unfold URL.String
  have hs : ("https" : String) ≠ "" := by decide
  simp only [ne_eq, hs, not_false_eq_true, if_true, hh, true_or, and_true]
  have e1 : ("https" : String) ++ ":" ++ "//" = "https://" := by decide
  rw [e1]
  split_ifs with h1 h2 h3
  · exact absurd h2.1 (append_ne_empty_left _ _ (append_ne_empty_left _ _ (by decide)))
  · rfl
  · exact absurd h3.1 (append_ne_empty_left _ _ (by decide))
  · simp [String.append_assoc]

theorem pluginHost_ne_empty (name ns : String) (port : Int) :
    name ++ "." ++ ns ++ ".svc.cluster.local:" ++ decimal port ≠ "" :=
  append_ne_empty_left _ _ (append_ne_empty_right _ _ (by decide))

theorem digitChar_toNat (m : Nat) (h : m < 10) :
    48 ≤ (Nat.digitChar m).toNat ∧ (Nat.digitChar m).toNat ≤ 57 := by
  interval_cases m <;> decide

theorem toDigitsCore_digits (fuel n : Nat) (ds : List Char)
    (hds : ∀ c ∈ ds, 48 ≤ c.toNat ∧ c.toNat ≤ 57) :
    ∀ c ∈ Nat.toDigitsCore 10 fuel n ds, 48 ≤ c.toNat ∧ c.toNat ≤ 57 := by
  induction fuel generalizing n ds with
  | zero => simpa [Nat.toDigitsCore] using hds
  | succ fuel ih =>
    have hd := digitChar_toNat (n % 10) (Nat.mod_lt _ (by decide))
    have hcons : ∀ c ∈ Nat.digitChar (n % 10) :: ds, 48 ≤ c.toNat ∧ c.toNat ≤ 57 := by
      intro c hc
      rcases List.mem_cons.1 hc with rfl | hc
      · exact hd
      · exact hds c hc
    unfold Nat.toDigitsCore
    simp only []
    split_ifs
    · exact hcons
    · exact ih _ _ hcons

theorem repr_digits (n : Nat) : ∀ c ∈ (Nat.repr n).data, 48 ≤ c.toNat ∧ c.toNat ≤ 57 := by
  intro c hc
  exact toDigitsCore_digits _ _ [] (by simp) c (by simpa [Nat.repr, Nat.toDigits, List.asString] using hc)

theorem decimal_chars (n : Int) :
    ∀ c ∈ (decimal n).data, c = '-' ∨ (48 ≤ c.toNat ∧ c.toNat ≤ 57) := by
  intro c hc
  cases n with
  | ofNat m =>
    right
    exact repr_digits m c hc
  | negSucc m =>
    have : (decimal (Int.negSucc m)).data = '-' :: (Nat.repr (m + 1)).data := rfl
    rw [this] at hc
    rcases List.mem_cons.1 hc with rfl | hc
    · left; rfl
    · right; exact repr_digits _ c hc

theorem shouldEscape_digit (c : Nat) (mode : encoding) (h : 48 ≤ c ∧ c ≤ 57) :
    shouldEscape c mode = false := by
  unfold shouldEscape
  rw [if_pos]
  right; right
  exact h

theorem bytes_of_ascii (s : String) (P : Nat → Prop)
    (h : ∀ c ∈ s.data, c.toNat < 128 ∧ P c.toNat) : ∀ b ∈ bytes s, P b := by
  intro b hb
  simp only [bytes, List.mem_flatMap] at hb
  obtain ⟨c, hc, hbc⟩ := hb
  have := h c hc
  simp only [utf8EncodeChar, this.1, if_true, List.mem_singleton] at hbc
  rw [hbc]
  exact this.2

theorem decimal_hostSafe (n : Int) :
    ∀ b ∈ bytes (decimal n), shouldEscape b .encodeHost = false := by
  apply bytes_of_ascii
  intro c hc
  rcases decimal_chars n c hc with rfl | h
  · decide
  · exact ⟨by omega, shouldEscape_digit _ _ h⟩

theorem EscapedPath_mk (scheme host path : String) :
    URL.EscapedPath { Scheme := scheme, Host := host, Path := path } =
      if path = "*" then "*" else escape path .encodePath :=
  rfl

theorem pluginHost_hostSafe (name ns : String) (port : Int) (h1 : hostSafe name)
    (h2 : hostSafe ns) :
    hostSafe (name ++ "." ++ ns ++ ".svc.cluster.local:" ++ decimal port) := by
  intro b hb
  simp only [bytes_append, List.mem_append] at hb
  rcases hb with (((hb | hb) | hb) | hb) | hb
  · exact h1 b hb
  · revert b; decide
  · exact h2 b hb
  · revert b; decide
  · exact decimal_hostSafe port b hb

theorem getProxyServiceURL_eq (service : ConsolePluginProxyServiceConfig)
    (h1 : hostSafe service.Name) (h2 : hostSafe service.Namespace) :
    getProxyServiceURL service =
      "https://" ++ service.Name ++ "." ++ service.Namespace ++ ".svc.cluster.local:"
        ++ decimal service.Port := by
  unfold getProxyServiceURL
  rw [URL_String_https _ _ (pluginHost_ne_empty _ _ _),
    escape_eq_self _ _ (pluginHost_hostSafe _ _ _ h1 h2)]
  rw [EscapedPath_mk]
  have : escape "" .encodePath = "" := by decide
  simp only [show ("" : String) ≠ "*" by decide, if_false, this]
  simp [String.append_assoc]

/-- Claim C2, refuted as stated: a base path without leading slash gets a slash put in
front of it, and a space, `?` and `#` in the base path are percent-escaped. -/
theorem getServiceURL_counterexample :
    getServiceURL (servicePlugin "api") = "https://svc.ns.svc.cluster.local:443/api" ∧
    getServiceURL (servicePlugin "api") ≠
      "https://" ++ "svc" ++ "." ++ "ns" ++ ".svc.cluster.local:" ++ decimal 443 ++ "api" ∧
    getServiceURL (servicePlugin "/a b?c#d") = "https://svc.ns.svc.cluster.local:443/a%20b%3Fc%23d" ∧
    getServiceURL (servicePlugin "/a b?c#d") ≠
      "https://" ++ "svc" ++ "." ++ "ns" ++ ".svc.cluster.local:" ++ decimal 443 ++ "/a b?c#d" := by
  decide

/-- Claim C2, amended: when service name and namespace hold only bytes that host escaping
leaves alone, and the base path is empty or starts with a slash and holds only bytes that
path escaping leaves alone, `getServiceURL` returns exactly
`"https://" + name + "." + namespace + ".svc.cluster.local:" + decimal(port) + basePath`. -/
theorem getServiceURL_eq (plugin : ConsolePlugin)
    (hname : hostSafe plugin.Spec.Service.Name) (hns : hostSafe plugin.Spec.Service.Namespace)
    (hpath : pathSafe plugin.Spec.Service.BasePath)
    (hslash : plugin.Spec.Service.BasePath = "" ∨
      plugin.Spec.Service.BasePath.data.head? = some '/') :
    getServiceURL plugin =
      "https://" ++ plugin.Spec.Service.Name ++ "." ++ plugin.Spec.Service.Namespace
        ++ ".svc.cluster.local:" ++ decimal plugin.Spec.Service.Port
        ++ plugin.Spec.Service.BasePath := by
  unfold getServiceURL
  rw [URL_String_https _ _ (pluginHost_ne_empty _ _ _),
    escape_eq_self _ _ (pluginHost_hostSafe _ _ _ hname hns)]
  have hstar : plugin.Spec.Service.BasePath ≠ "*" := by
    intro h
    rw [h] at hpath
    revert hpath
    decide
  rw [EscapedPath_mk]
  simp only [hstar, if_false, escape_eq_self _ _ hpath]
  have hno : ¬ (plugin.Spec.Service.BasePath ≠ "" ∧
      plugin.Spec.Service.BasePath.data.head? ≠ some '/') := by
    rintro ⟨h1, h2⟩
    rcases hslash with h | h
    · exact h1 h
    · exact h2 h
  rw [if_neg hno]
  simp [String.append_assoc]

/-- The amended claim C2 at service `svc`, namespace `ns`, port 443, base path `/api`. -/
theorem getServiceURL_eq_witness :
    getServiceURL (servicePlugin "/api") = "https://svc.ns.svc.cluster.local:443/api" :=
  getServiceURL_eq (servicePlugin "/api") (by decide) (by decide) (by decide) (Or.inr (by decide))

/-! ## Plugin resolver -/

theorem foldl_i18n (K : String) (ps : List ConsolePlugin) (acc : List String) :
    ps.foldl
      (fun i18nNamespaces plugin =>
        if plugin.Annotations.index K = "true" then
          i18nNamespaces ++ ["plugin__" ++ plugin.Name]
        else i18nNamespaces) acc
    = acc ++ (ps.filter fun p => decide (p.Annotations.index K = "true")).map
        fun p => "plugin__" ++ p.Name := by
  induction ps generalizing acc with
  | nil => simp
  | cons p ps ih =>
    rw [List.foldl_cons, ih]
    by_cases h : p.Annotations.index K = "true"
    · simp [h, List.filter_cons]
    · simp [h, List.filter_cons]

/-- Claim C6: `pluginsWithI18nNamespace` returns, in input order, `"plugin__" + name` for exactly
the descriptors whose i18n annotation is `"true"`; its length is the number of such
descriptors, it is empty on the empty list, and of three plugins `a`, `b`, `c` with only
`b` enabled it returns `["plugin__b"]`. -/
theorem pluginsWithI18nNamespace_spec ( PluginI18nAnnotation : String)
    (availablePlugins : List ConsolePlugin) :
    pluginsWithI18nNamespace PluginI18nAnnotation availablePlugins =
      (availablePlugins.filter fun p =>
        decide (p.Annotations.index PluginI18nAnnotation = "true")).map
        (fun p => "plugin__" ++ p.Name) ∧
    (pluginsWithI18nNamespace PluginI18nAnnotation availablePlugins).length =
      availablePlugins.countP (fun p =>
        decide (p.Annotations.index PluginI18nAnnotation = "true")) ∧
    pluginsWithI18nNamespace PluginI18nAnnotation [] = [] ∧
    pluginsWithI18nNamespace "console.openshift.io/use-i18n"
      [i18nPlugin "a" [], i18nPlugin "b" [("console.openshift.io/use-i18n", "true")],
       i18nPlugin "c" [("console.openshift.io/use-i18n", "false")]] = ["plugin__b"] := by
  have h : ∀ ps, pluginsWithI18nNamespace PluginI18nAnnotation ps =
      (ps.filter fun p => decide (p.Annotations.index PluginI18nAnnotation = "true")).map
        (fun p => "plugin__" ++ p.Name) := by
    intro ps
    rw [pluginsWithI18nNamespace, foldl_i18n, List.nil_append]
  refine ⟨h _, ?_, rfl, by decide⟩
  rw [h, List.length_map, List.countP_eq_length_filter]

/-! ### Endpoint map -/

theorem getPluginsEndpointMap_eq (ps : List ConsolePlugin) :
    getPluginsEndpointMap ps = GoMap.ofEntries (ps.map fun p => (p.Name, getServiceURL p)) := by
  rw [getPluginsEndpointMap, GoMap.ofEntries, List.foldl_map]

/-- Claim C7, refuted as stated: two descriptors that share the name `p` yield one entry, and
the name is mapped to the URL of the second one, not to the first one's own URL. -/
theorem getPluginsEndpointMap_counterexample :
    (getPluginsEndpointMap [endpointPlugin "p" "svc1", endpointPlugin "p" "svc2"]).len = 1 ∧
    [endpointPlugin "p" "svc1", endpointPlugin "p" "svc2"].length = 2 ∧
    (getPluginsEndpointMap [endpointPlugin "p" "svc1", endpointPlugin "p" "svc2"]).lookup "p"
      = some "https://svc2.ns.svc.cluster.local:443/api" ∧
    getServiceURL (endpointPlugin "p" "svc1") = "https://svc1.ns.svc.cluster.local:443/api" := by
  decide

/-- Claim C7, amended: when the names of the descriptors are pairwise distinct, the endpoint map
has as many entries as the list has descriptors and maps each descriptor's name to that
descriptor's own service URL. -/
theorem getPluginsEndpointMap_spec (availablePlugins : List ConsolePlugin)
    (hnames : (availablePlugins.map fun p => p.Name).Nodup) :
    (getPluginsEndpointMap availablePlugins).len = availablePlugins.length ∧
    ∀ plugin ∈ availablePlugins,
      (getPluginsEndpointMap availablePlugins).lookup plugin.Name
        = some (getServiceURL plugin) := by
  have hnd : ((availablePlugins.map fun p => (p.Name, getServiceURL p)).map Prod.fst).Nodup := by
    rw [List.map_map]; exact hnames
  rw [getPluginsEndpointMap_eq]
  refine ⟨by rw [GoMap.len_ofEntries _ hnd, List.length_map], ?_⟩
  intro plugin hp
  rw [GoMap.lookup_ofEntries_iff _ hnd]
  exact List.mem_map.2 ⟨plugin, hp, rfl⟩

/-- The amended claim C7 at two plugins named `p1` and `p2`. -/
theorem getPluginsEndpointMap_spec_witness :
    (getPluginsEndpointMap [endpointPlugin "p1" "svc", endpointPlugin "p2" "svc"]).len = 2 ∧
    ∀ plugin ∈ [endpointPlugin "p1" "svc", endpointPlugin "p2" "svc"],
      (getPluginsEndpointMap [endpointPlugin "p1" "svc", endpointPlugin "p2" "svc"]).lookup
        plugin.Name = some (getServiceURL plugin) :=
  getPluginsEndpointMap_spec [endpointPlugin "p1" "svc", endpointPlugin "p2" "svc"] (by decide)

/-! ### Proxy services -/

theorem foldl_proxy_inner (K : String) (plugin : ConsolePlugin) (l : List ConsolePluginProxy)
    (acc : List ProxyService) :
    l.foldl
      (fun proxyServices proxy =>
        if proxy.ProxyType = K then
          proxyServices ++
            [{ ConsoleAPIPath := getConsoleAPIPath plugin.Name proxy
               Endpoint := getProxyServiceURL proxy.Service
               CACertificate := proxy.CACertificate
               Authorize := proxy.Authorize }]
        else proxyServices) acc
    = acc ++ (l.filter fun r => decide (r.ProxyType = K)).map (proxyServiceOf plugin) := by
  induction l generalizing acc with
  | nil => simp
  | cons r l ih =>
    rw [List.foldl_cons, ih]
    by_cases h : r.ProxyType = K
    · simp [h, List.filter_cons, proxyServiceOf]
    · simp [h, List.filter_cons]

theorem getPluginsProxyServices_flatMap (K : String) (ps : List ConsolePlugin) :
    getPluginsProxyServices K ps =
      ps.flatMap fun p =>
        (p.Spec.Proxy.filter fun r => decide (r.ProxyType = K)).map (proxyServiceOf p) := by
  have h : ∀ acc : List ProxyService,
      ps.foldl
        (fun proxyServices plugin =>
          plugin.Spec.Proxy.foldl
            (fun proxyServices proxy =>
              if proxy.ProxyType = K then
                proxyServices ++
                  [{ ConsoleAPIPath := getConsoleAPIPath plugin.Name proxy
                     Endpoint := getProxyServiceURL proxy.Service
                     CACertificate := proxy.CACertificate
                     Authorize := proxy.Authorize }]
              else proxyServices)
            proxyServices) acc
      = acc ++ ps.flatMap fun p =>
          (p.Spec.Proxy.filter fun r => decide (r.ProxyType = K)).map (proxyServiceOf p) := by
    induction ps with
    | nil => simp
    | cons p ps ih =>
      intro acc
      rw [List.foldl_cons, ih, foldl_proxy_inner, List.flatMap_cons, List.append_assoc]
  rw [getPluginsProxyServices, h, List.nil_append]

/-- Claim C3, refuted as stated: for a rule whose service name holds a space the endpoint is
percent-escaped, so it is not the plain concatenation. -/
theorem getPluginsProxyServices_counterexample :
    getPluginsProxyServices "Service" [proxyPlugin "p1" "a b"] =
      [{ ConsoleAPIPath := "/api/proxy/plugin/p1/backend/"
         Endpoint := "https://a%20b.ns.svc.cluster.local:8443"
         CACertificate := "ca"
         Authorize := true }] ∧
    "https://a%20b.ns.svc.cluster.local:8443" ≠
      "https://" ++ "a b" ++ "." ++ "ns" ++ ".svc.cluster.local:" ++ decimal 8443 := by
  decide

/-- Claim C3, amended: when the service name and namespace of every rule of the service type
hold only bytes that host escaping leaves alone, `getPluginsProxyServices` returns, in
input order, one descriptor per rule of the service type and none for other rules, with
the console path, the plain endpoint without path, and the rule's own CA certificate and
authorize flag. -/
theorem getPluginsProxyServices_spec ( ProxyTypeService : String)
    (availablePlugins : List ConsolePlugin)
    (hsafe : ∀ plugin ∈ availablePlugins, ∀ r ∈ plugin.Spec.Proxy,
      r.ProxyType = ProxyTypeService →
        hostSafe r.Service.Name ∧ hostSafe r.Service.Namespace) :
    getPluginsProxyServices ProxyTypeService availablePlugins =
      availablePlugins.flatMap fun plugin =>
        (plugin.Spec.Proxy.filter fun r => decide (r.ProxyType = ProxyTypeService)).map fun r =>
          { ConsoleAPIPath := "/api/proxy/plugin/" ++ plugin.Name ++ "/" ++ r.Alias ++ "/"
            Endpoint := "https://" ++ r.Service.Name ++ "." ++ r.Service.Namespace
              ++ ".svc.cluster.local:" ++ decimal r.Service.Port
            CACertificate := r.CACertificate
            Authorize := r.Authorize } := by
  rw [getPluginsProxyServices_flatMap]
  induction availablePlugins with
  | nil => rfl
  | cons p ps ih =>
    rw [List.flatMap_cons, List.flatMap_cons, ih fun q hq => hsafe q (List.mem_cons_of_mem _ hq)]
    congr 1
    apply List.map_congr_left
    intro r hr
    rw [List.mem_filter] at hr
    have hs := hsafe p (List.mem_cons_self _ _) r hr.1 (of_decide_eq_true hr.2)
    simp only [proxyServiceOf, getConsoleAPIPath, pluginProxyEndpoint,
      getProxyServiceURL_eq r.Service hs.1 hs.2]

/-- The amended claim C3 at plugin `p1` with one rule of the service type, alias `backend`,
and one rule of another type. -/
theorem getPluginsProxyServices_spec_witness :
    getPluginsProxyServices "Service" [proxyPlugin "p1" "svc"] =
      [{ ConsoleAPIPath := "/api/proxy/plugin/p1/backend/"
         Endpoint := "https://svc.ns.svc.cluster.local:8443"
         CACertificate := "ca"
         Authorize := true }] :=
  getPluginsProxyServices_spec "Service" [proxyPlugin "p1" "svc"] (by decide)

/-! ## Telemetry -/

/-- Claim C4, refuted as stated: the annotation whose key is the bare prefix (empty rest) is
not copied. -/
theorem GetTelemetryConfiguration_counterexample :
    IsRangeOf (fixedOrder [("telemetry.console.openshift.io/", "v")]
        (operatorWith [("telemetry.console.openshift.io/", "v")] "").Annotations)
      (operatorWith [("telemetry.console.openshift.io/", "v")] "").Annotations ∧
    (operatorWith [("telemetry.console.openshift.io/", "v")] "").Annotations.lookup
      (telemetryAnnotationPrefix ++ "") = some "v" ∧
    (GetTelemetryConfiguration (fixedOrder [("telemetry.console.openshift.io/", "v")])
      (operatorWith [("telemetry.console.openshift.io/", "v")] "")).lookup "" = none := by
  decide

/-- Claim C4, amended: every annotation whose key is the prefix followed by a non-empty rest is
copied: the result maps the rest to the annotation's value. -/
theorem GetTelemetryConfiguration_complete {T : ExternalTypes} (rangeOrder : RangeOrder)
    (operatorConfig : Console T)
    (hwalk : IsRangeOf (rangeOrder operatorConfig.Annotations) operatorConfig.Annotations)
    (rest v : String) (hrest : rest ≠ "")
    (hann : operatorConfig.Annotations.lookup (telemetryAnnotationPrefix ++ rest) = some v) :
    (GetTelemetryConfiguration rangeOrder operatorConfig).lookup rest = some v :=
  (lookup_GetTelemetryConfiguration rangeOrder operatorConfig hwalk rest v).2 ⟨hrest, hann⟩

/-- The amended claim C4 at the annotations `telemetry.console.openshift.io/FOO: 1` and
`other: 2`, visited in the reverse order. -/
theorem GetTelemetryConfiguration_complete_witness :
    (GetTelemetryConfiguration
      (fixedOrder [("other", "2"), ("telemetry.console.openshift.io/FOO", "1")])
      (operatorWith [("telemetry.console.openshift.io/FOO", "1"), ("other", "2")] "")).lookup
        "FOO" = some "1" :=
  GetTelemetryConfiguration_complete
    (fixedOrder [("other", "2"), ("telemetry.console.openshift.io/FOO", "1")])
    (operatorWith [("telemetry.console.openshift.io/FOO", "1"), ("other", "2")] "")
    (by decide) "FOO" "1" (by decide) (by decide)

theorem length_filterMap_telemetryEntry (l : List (String × String)) :
    (l.filterMap telemetryEntry).length
      = ((l.map Prod.fst).filter fun k => decide (isTelemetryKey k)).length := by
  induction l with
  | nil => rfl
  | cons kv l ih =>
    by_cases hk : isTelemetryKey kv.1
    · have : telemetryEntry kv = some (sliceFrom kv.1 (len telemetryAnnotationPrefix), kv.2) := by
        simp [telemetryEntry, hk]
      rw [List.filterMap_cons_some this]
      simp [List.filter_cons, hk, ih]
    · have : telemetryEntry kv = none := by simp [telemetryEntry, hk]
      rw [List.filterMap_cons_none this]
      simp [List.filter_cons, hk, ih]

theorem len_GetTelemetryConfiguration {T : ExternalTypes} (rangeOrder : RangeOrder)
    (operatorConfig : Console T)
    (h : IsRangeOf (rangeOrder operatorConfig.Annotations) operatorConfig.Annotations) :
    (GetTelemetryConfiguration rangeOrder operatorConfig).len
      = (operatorConfig.Annotations.keys.filter fun k => isTelemetryKey k).card := by
  rw [GetTelemetryConfiguration_eq rangeOrder operatorConfig h,
    GoMap.len_ofEntries _ (nodup_keys_filterMap_telemetryEntry _ h.1),
    length_filterMap_telemetryEntry]
  conv_rhs => rw [← h.2, GoMap.keys_ofEntries]
  have hf := List.toFinset_filter (List.map Prod.fst (rangeOrder operatorConfig.Annotations))
    (fun k => decide (isTelemetryKey k))
  simp only [decide_eq_true_eq] at hf
  rw [← hf, List.toFinset_card_of_nodup (h.1.filter _)]

theorem prefix_append_ne_other (r : String) : telemetryAnnotationPrefix ++ r ≠ "other" := by
  intro h
  have := congrArg String.data h
  rw [String.data_append] at this
  exact absurd this (by simp [telemetryAnnotationPrefix])

theorem GetTelemetryConfiguration_example {T : ExternalTypes} (rangeOrder : RangeOrder)
    (operatorConfig : Console T)
    (h : IsRangeOf (rangeOrder operatorConfig.Annotations) operatorConfig.Annotations)
    (hann : operatorConfig.Annotations =
      GoMap.ofEntries [("telemetry.console.openshift.io/FOO", "1"), ("other", "2")]) :
    GetTelemetryConfiguration rangeOrder operatorConfig = Finmap.singleton "FOO" "1" := by
  apply Finmap.ext_lookup
  intro r
  apply Option.ext
  intro v
  simp only [Option.mem_def]
  rw [lookup_GetTelemetryConfiguration rangeOrder operatorConfig h, hann,
    GoMap.lookup_ofEntries_iff _ (by decide)]
  have e1 : ("telemetry.console.openshift.io/FOO" : String) = telemetryAnnotationPrefix ++ "FOO" := by
    decide
  constructor
  · rintro ⟨-, hmem⟩
    simp only [List.mem_cons, Prod.mk.injEq, List.mem_singleton, List.mem_nil_iff, or_false] at hmem
    rcases hmem with ⟨hk, rfl⟩ | ⟨hk, -⟩
    · rw [e1] at hk
      rw [append_right_injective _ _ _ hk]
      exact Finmap.lookup_singleton_eq
    · exact absurd hk (prefix_append_ne_other r)
  · intro hs
    have hr : r = "FOO" := by
      by_contra hne
      have hnot : r ∉ (Finmap.singleton "FOO" "1" : GoMap) := by
        rw [Finmap.mem_singleton]; exact hne
      rw [Finmap.lookup_eq_none.2 hnot] at hs
      cases hs
    subst hr
    rw [Finmap.lookup_singleton_eq] at hs
    cases hs
    exact ⟨by decide, by simp [e1]⟩

/-- Claim C5: every entry of the result comes from a prefixed annotation: if the result maps
`rest` to `v` then the annotation set maps the prefix followed by `rest` to `v`; the
result has one entry for each annotation that passes the guard, so they never collide;
the annotations `telemetry.console.openshift.io/FOO: 1` and `other: 2` give exactly
`FOO: 1`; an empty annotation set gives the empty map. -/
theorem GetTelemetryConfiguration_sound {T : ExternalTypes} (rangeOrder : RangeOrder)
    (operatorConfig : Console T)
    (hwalk : IsRangeOf (rangeOrder operatorConfig.Annotations) operatorConfig.Annotations) :
    (∀ rest v, (GetTelemetryConfiguration rangeOrder operatorConfig).lookup rest = some v →
      operatorConfig.Annotations.lookup (telemetryAnnotationPrefix ++ rest) = some v) ∧
    (GetTelemetryConfiguration rangeOrder operatorConfig).len
      = (operatorConfig.Annotations.keys.filter fun k =>
          HasPrefix k telemetryAnnotationPrefix = true ∧
            len k > len telemetryAnnotationPrefix).card ∧
    (operatorConfig.Annotations =
        GoMap.ofEntries [("telemetry.console.openshift.io/FOO", "1"), ("other", "2")] →
      GetTelemetryConfiguration rangeOrder operatorConfig = Finmap.singleton "FOO" "1") ∧
    (operatorConfig.Annotations = ∅ →
      GetTelemetryConfiguration rangeOrder operatorConfig = ∅) := by
  refine ⟨fun rest v h =>
      ((lookup_GetTelemetryConfiguration rangeOrder operatorConfig hwalk rest v).1 h).2,
    len_GetTelemetryConfiguration rangeOrder operatorConfig hwalk,
    GetTelemetryConfiguration_example rangeOrder operatorConfig hwalk, ?_⟩
  intro h0
  unfold GetTelemetryConfiguration
  rw [h0]
  rfl

/-- Claim C5 at the annotations `telemetry.console.openshift.io/FOO: 1` and `other: 2`,
visited in the reverse order. -/
theorem GetTelemetryConfiguration_sound_witness :
    GetTelemetryConfiguration
      (fixedOrder [("other", "2"), ("telemetry.console.openshift.io/FOO", "1")])
      (operatorWith [("telemetry.console.openshift.io/FOO", "1"), ("other", "2")] "")
      = Finmap.singleton "FOO" "1" :=
  (GetTelemetryConfiguration_sound
    (fixedOrder [("other", "2"), ("telemetry.console.openshift.io/FOO", "1")])
    (operatorWith [("telemetry.console.openshift.io/FOO", "1"), ("other", "2")] "")
    (by decide)).2.2.1 rfl

/-! ## `DefaultConfigMap` -/

theorem bne_len_zero_iff (s : String) : (len s != 0) = true ↔ s ≠ "" := by
  rw [bne_iff_ne, ne_eq, len_eq_zero_iff]

/-- Claim C1: when both renders and the merge return no error, `DefaultConfigMap` returns a
resource whose `Data` is exactly the one-entry map from `console-config.yaml` to the
merger's result on the default variant, the extracted managed fragment, the user variant
and the raw override, in this order; the returned flag is true exactly when the raw
override is non-empty; the error is nil. -/
theorem DefaultConfigMap_payload {T : ExternalTypes} (D : Collaborators T)
    (rangeOrder : RangeOrder) (operatorConfig : Console T) (consoleConfig : ConfigConsole)
    (managedConfig : ConfigMap) (infrastructureConfig : Infrastructure)
    (activeConsoleRoute : Route) (useDefaultCAFile : Bool) (inactivityTimeoutSeconds : Int)
    (availablePlugins : List ConsolePlugin) (managedClusterConfigFile : String)
    (defaultConfig userDefinedConfig mergedConfig : String)
    (hdefault : D.ConfigYAML (defaultBuilderCalls D (some infrastructureConfig)
      activeConsoleRoute useDefaultCAFile inactivityTimeoutSeconds) = .ok defaultConfig)
    (huser : D.ConfigYAML (userDefinedBuilderCalls D rangeOrder operatorConfig consoleConfig
      infrastructureConfig activeConsoleRoute useDefaultCAFile inactivityTimeoutSeconds
      availablePlugins managedClusterConfigFile) = .ok userDefinedConfig)
    (hmerge : D.Merge [defaultConfig, extractYAML rangeOrder managedConfig, userDefinedConfig,
      operatorConfig.Spec.UnsupportedConfigOverrides.Raw] = .ok mergedConfig) :
    ∃ (configMap : ConfigMap) (merged : Bool),
      DefaultConfigMap D rangeOrder (some operatorConfig) (some consoleConfig)
        (some managedConfig) (some infrastructureConfig) (some activeConsoleRoute)
        useDefaultCAFile inactivityTimeoutSeconds availablePlugins managedClusterConfigFile
        = .ret (some configMap, merged, none) ∧
      configMap.Data = Finmap.singleton "console-config.yaml" mergedConfig ∧
      (merged = true ↔ operatorConfig.Spec.UnsupportedConfigOverrides.Raw ≠ "") := by
  simp only [DefaultConfigMap, hdefault, huser, hmerge]
  exact ⟨_, _, rfl, rfl, bne_len_zero_iff _⟩

/-- Claim C1 at a renderer that prints the host, a merger that concatenates, a managed
fragment and a non-empty override. -/
theorem DefaultConfigMap_payload_witness :
    ∃ (configMap : ConfigMap) (merged : Bool),
      DefaultConfigMap (plainCollaborators renderHost mergeJoin) (orderOf [("k", "managed\n")])
        (some (operatorWith [] "override\n")) (some (consoleWith ""))
        (some (managedWith [("k", "managed\n")])) (some (infrastructureWith "HighlyAvailable"))
        (some (routeWith "console.example.com")) false 0 [] ""
        = .ret (some configMap, merged, none) ∧
      configMap.Data = Finmap.singleton "console-config.yaml"
        ("host: console.example.com calls: 7\n" ++ "managed\n"
          ++ "host: console.example.com calls: 21\n" ++ "override\n") ∧
      (merged = true ↔ (operatorWith [] "override\n").Spec.UnsupportedConfigOverrides.Raw ≠ "") :=
  DefaultConfigMap_payload (plainCollaborators renderHost mergeJoin)
    (orderOf [("k", "managed\n")]) (operatorWith [] "override\n") (consoleWith "")
    (managedWith [("k", "managed\n")]) (infrastructureWith "HighlyAvailable")
    (routeWith "console.example.com") false 0 [] ""
    "host: console.example.com calls: 7\n" "host: console.example.com calls: 21\n" _
    rfl rfl rfl

/-- Claim C10: a failure of the default render, else of the user render, else of the merge makes
`DefaultConfigMap` return no resource, the flag false and exactly that error; a nil error
is returned only when the three steps succeed, and then a resource is returned; with a
non-nil error there is never a resource. -/
theorem DefaultConfigMap_failure {T : ExternalTypes} (D : Collaborators T)
    (rangeOrder : RangeOrder) (useDefaultCAFile : Bool) (inactivityTimeoutSeconds : Int)
    (availablePlugins : List ConsolePlugin) (managedClusterConfigFile : String) :
    (∀ operatorConfig consoleConfig managedConfig infrastructureConfig activeConsoleRoute err,
      D.ConfigYAML (defaultBuilderCalls D infrastructureConfig activeConsoleRoute
        useDefaultCAFile inactivityTimeoutSeconds) = .error err →
      DefaultConfigMap D rangeOrder operatorConfig consoleConfig managedConfig
        infrastructureConfig (some activeConsoleRoute) useDefaultCAFile
        inactivityTimeoutSeconds availablePlugins managedClusterConfigFile
        = .ret (none, false, some err)) ∧
    (∀ operatorConfig consoleConfig managedConfig infrastructureConfig activeConsoleRoute
        defaultConfig err,
      D.ConfigYAML (defaultBuilderCalls D (some infrastructureConfig) activeConsoleRoute
        useDefaultCAFile inactivityTimeoutSeconds) = .ok defaultConfig →
      D.ConfigYAML (userDefinedBuilderCalls D rangeOrder operatorConfig consoleConfig
        infrastructureConfig activeConsoleRoute useDefaultCAFile inactivityTimeoutSeconds
        availablePlugins managedClusterConfigFile) = .error err →
      DefaultConfigMap D rangeOrder (some operatorConfig) (some consoleConfig)
        (some managedConfig) (some infrastructureConfig) (some activeConsoleRoute)
        useDefaultCAFile inactivityTimeoutSeconds availablePlugins managedClusterConfigFile
        = .ret (none, false, some err)) ∧
    (∀ operatorConfig consoleConfig managedConfig infrastructureConfig activeConsoleRoute
        defaultConfig userDefinedConfig err,
      D.ConfigYAML (defaultBuilderCalls D (some infrastructureConfig) activeConsoleRoute
        useDefaultCAFile inactivityTimeoutSeconds) = .ok defaultConfig →
      D.ConfigYAML (userDefinedBuilderCalls D rangeOrder operatorConfig consoleConfig
        infrastructureConfig activeConsoleRoute useDefaultCAFile inactivityTimeoutSeconds
        availablePlugins managedClusterConfigFile) = .ok userDefinedConfig →
      D.Merge [defaultConfig, extractYAML rangeOrder managedConfig, userDefinedConfig,
        operatorConfig.Spec.UnsupportedConfigOverrides.Raw] = .error err →
      DefaultConfigMap D rangeOrder (some operatorConfig) (some consoleConfig)
        (some managedConfig) (some infrastructureConfig) (some activeConsoleRoute)
        useDefaultCAFile inactivityTimeoutSeconds availablePlugins managedClusterConfigFile
        = .ret (none, false, some err)) ∧
    (∀ operatorConfig consoleConfig managedConfig infrastructureConfig activeConsoleRoute
        configMap merged,
      DefaultConfigMap D rangeOrder operatorConfig consoleConfig managedConfig
        infrastructureConfig activeConsoleRoute useDefaultCAFile inactivityTimeoutSeconds
        availablePlugins managedClusterConfigFile = .ret (configMap, merged, none) →
      ∃ operator console managed infrastructure route defaultConfig userDefinedConfig
          mergedConfig,
        operatorConfig = some operator ∧ consoleConfig = some console ∧
        managedConfig = some managed ∧ infrastructureConfig = some infrastructure ∧
        activeConsoleRoute = some route ∧
        D.ConfigYAML (defaultBuilderCalls D (some infrastructure) route useDefaultCAFile
          inactivityTimeoutSeconds) = .ok defaultConfig ∧
        D.ConfigYAML (userDefinedBuilderCalls D rangeOrder operator console infrastructure
          route useDefaultCAFile inactivityTimeoutSeconds availablePlugins
          managedClusterConfigFile) = .ok userDefinedConfig ∧
        D.Merge [defaultConfig, extractYAML rangeOrder managed, userDefinedConfig,
          operator.Spec.UnsupportedConfigOverrides.Raw] = .ok mergedConfig ∧
        configMap.isSome = true) ∧
    (∀ operatorConfig consoleConfig managedConfig infrastructureConfig activeConsoleRoute
        configMap merged err,
      DefaultConfigMap D rangeOrder operatorConfig consoleConfig managedConfig
        infrastructureConfig activeConsoleRoute useDefaultCAFile inactivityTimeoutSeconds
        availablePlugins managedClusterConfigFile = .ret (configMap, merged, some err) →
      configMap = none ∧ merged = false) := by
  refine ⟨?_, ?_, ?_, ?_, ?_⟩
  · intro oc cc mc ic r err h
    simp only [DefaultConfigMap, h]
  · intro oc cc mc ic r d err hd hu
    simp only [DefaultConfigMap, hd, hu]
  · intro oc cc mc ic r d u err hd hu hm
    simp only [DefaultConfigMap, hd, hu, hm]
  · intro oc cc mc ic r cm w h
    rcases r with _ | r
    · simp [DefaultConfigMap] at h
    cases hd : D.ConfigYAML (defaultBuilderCalls D ic r useDefaultCAFile
        inactivityTimeoutSeconds) with
    | error e => simp [DefaultConfigMap, hd] at h
    | ok d =>
      rcases mc with _ | mc
      · simp [DefaultConfigMap, hd] at h
      rcases cc with _ | cc
      · simp [DefaultConfigMap, hd] at h
      rcases oc with _ | oc
      · simp [DefaultConfigMap, hd] at h
      rcases ic with _ | ic
      · simp [DefaultConfigMap, hd] at h
      cases hu : D.ConfigYAML (userDefinedBuilderCalls D rangeOrder oc cc ic r useDefaultCAFile
          inactivityTimeoutSeconds availablePlugins managedClusterConfigFile) with
      | error e => simp [DefaultConfigMap, hd, hu] at h
      | ok u =>
        cases hm : D.Merge [d, extractYAML rangeOrder mc, u,
            oc.Spec.UnsupportedConfigOverrides.Raw] with
        | error e => simp [DefaultConfigMap, hd, hu, hm] at h
        | ok M =>
          simp only [DefaultConfigMap, hd, hu, hm, GoResult.ret.injEq, Prod.mk.injEq] at h
          refine ⟨oc, cc, mc, ic, r, d, u, M, rfl, rfl, rfl, rfl, rfl, hd, hu, hm, ?_⟩
          rw [← h.1]
          rfl
  · intro oc cc mc ic r cm w err h
    rcases r with _ | r
    · simp [DefaultConfigMap] at h
    cases hd : D.ConfigYAML (defaultBuilderCalls D ic r useDefaultCAFile
        inactivityTimeoutSeconds) with
    | error e =>
      simp only [DefaultConfigMap, hd, GoResult.ret.injEq, Prod.mk.injEq] at h
      exact ⟨h.1.symm, h.2.1.symm⟩
    | ok d =>
      rcases mc with _ | mc
      · simp [DefaultConfigMap, hd] at h
      rcases cc with _ | cc
      · simp [DefaultConfigMap, hd] at h
      rcases oc with _ | oc
      · simp [DefaultConfigMap, hd] at h
      rcases ic with _ | ic
      · simp [DefaultConfigMap, hd] at h
      cases hu : D.ConfigYAML (userDefinedBuilderCalls D rangeOrder oc cc ic r useDefaultCAFile
          inactivityTimeoutSeconds availablePlugins managedClusterConfigFile) with
      | error e =>
        simp only [DefaultConfigMap, hd, hu, GoResult.ret.injEq, Prod.mk.injEq] at h
        exact ⟨h.1.symm, h.2.1.symm⟩
      | ok u =>
        cases hm : D.Merge [d, extractYAML rangeOrder mc, u,
            oc.Spec.UnsupportedConfigOverrides.Raw] with
        | error e =>
          simp only [DefaultConfigMap, hd, hu, hm, GoResult.ret.injEq, Prod.mk.injEq] at h
          exact ⟨h.1.symm, h.2.1.symm⟩
        | ok M => simp [DefaultConfigMap, hd, hu, hm] at h

/-- Claim C10 at a route with an empty host, on which the default render fails. -/
theorem DefaultConfigMap_failure_witness :
    DefaultConfigMap (plainCollaborators renderHost mergeJoin) (orderOf [])
      (some (operatorWith [] "")) (some (consoleWith "")) (some (managedWith []))
      (some (infrastructureWith "HighlyAvailable")) (some (routeWith "")) false 0 [] ""
      = .ret (none, false, some "host is required") :=
  (DefaultConfigMap_failure (plainCollaborators renderHost mergeJoin) (orderOf []) false 0 []
    "").1 (some (operatorWith [] "")) (some (consoleWith "")) (some (managedWith []))
    (some (infrastructureWith "HighlyAvailable")) (routeWith "") "host is required" rfl

/-! ### Cluster facts in the two builder chains -/

/-- Claim C8, refuted as stated: the topology mode setter is applied to the user builder and
never to the default builder. -/
theorem clusterFacts_counterexample :
    BuilderCall.TopologyMode "SingleReplica" ∈
      userDefinedBuilderCalls (plainCollaborators renderHost mergeJoin) (orderOf [])
        (operatorWith [] "") (consoleWith "") (infrastructureWith "SingleReplica")
        (routeWith "console.example.com") false 0 [] "" ∧
    ∀ topologyMode, BuilderCall.TopologyMode topologyMode ∉
      defaultBuilderCalls (plainCollaborators renderHost mergeJoin)
        (some (infrastructureWith "SingleReplica")) (routeWith "console.example.com") false 0 := by
  constructor
  · simp [userDefinedBuilderCalls, infrastructureWith]
  · intro m
    simp [defaultBuilderCalls]

/-- Claim C8, amended: the API server URL setter is applied to both builders with the same
argument, the API server URL of the infrastructure config; the topology mode setter is
applied to the user builder only, with the control plane topology of the infrastructure
config, and the default builder never receives it. -/
theorem clusterFacts_flow {T : ExternalTypes} (D : Collaborators T) (rangeOrder : RangeOrder)
    (operatorConfig : Console T) (consoleConfig : ConfigConsole)
    (infrastructureConfig : Infrastructure) (activeConsoleRoute : Route)
    (useDefaultCAFile : Bool) (inactivityTimeoutSeconds : Int)
    (availablePlugins : List ConsolePlugin) (managedClusterConfigFile : String) :
    (∀ url, BuilderCall.APIServerURL url ∈
        userDefinedBuilderCalls D rangeOrder operatorConfig consoleConfig infrastructureConfig
          activeConsoleRoute useDefaultCAFile inactivityTimeoutSeconds availablePlugins
          managedClusterConfigFile ↔
      BuilderCall.APIServerURL url ∈
        defaultBuilderCalls D (some infrastructureConfig) activeConsoleRoute useDefaultCAFile
          inactivityTimeoutSeconds) ∧
    (∀ url, BuilderCall.APIServerURL url ∈
        defaultBuilderCalls D (some infrastructureConfig) activeConsoleRoute useDefaultCAFile
          inactivityTimeoutSeconds ↔
      url = infrastructureConfig.Status.APIServerURL) ∧
    (∀ topologyMode, BuilderCall.TopologyMode topologyMode ∈
        userDefinedBuilderCalls D rangeOrder operatorConfig consoleConfig infrastructureConfig
          activeConsoleRoute useDefaultCAFile inactivityTimeoutSeconds availablePlugins
          managedClusterConfigFile ↔
      topologyMode = infrastructureConfig.Status.ControlPlaneTopology) ∧
    (∀ topologyMode, BuilderCall.TopologyMode topologyMode ∉
        defaultBuilderCalls D (some infrastructureConfig) activeConsoleRoute useDefaultCAFile
          inactivityTimeoutSeconds) := by
  refine ⟨?_, ?_, ?_, ?_⟩ <;> intro x <;>
    simp [userDefinedBuilderCalls, defaultBuilderCalls, getApiUrl]

/-! ### Determinism -/

theorem IsRangeOf.perm {l l' : List (String × String)} {m : GoMap} (h : IsRangeOf l m)
    (hp : l'.Perm l) : IsRangeOf l' m := by
  have hnd : (l'.map Prod.fst).Nodup := (hp.map Prod.fst).nodup_iff.2 h.1
  refine ⟨hnd, ?_⟩
  apply Finmap.ext_lookup
  intro k
  apply Option.ext
  intro v
  simp only [Option.mem_def]
  rw [GoMap.lookup_ofEntries_iff l' hnd, hp.mem_iff, h.mem_iff]

/-- Every map has a walk. -/
theorem exists_isRangeOf (m : GoMap) : ∃ l, IsRangeOf l m := by
  induction m using Finmap.induction_on with
  | H a =>
    have hkeys : (a.entries.map fun e => ((e.1, e.2) : String × String)).map Prod.fst = a.keys := by
      rw [List.map_map]
      rfl
    have hnd : ((a.entries.map fun e => ((e.1, e.2) : String × String)).map Prod.fst).Nodup := by
      rw [hkeys]
      exact a.keys_nodup
    refine ⟨a.entries.map fun e => (e.1, e.2), hnd, ?_⟩
    apply Finmap.ext_lookup
    intro k
    apply Option.ext
    intro v
    simp only [Option.mem_def]
    rw [GoMap.lookup_ofEntries_iff _ hnd, Finmap.lookup_toFinmap, ← Option.mem_def,
      AList.mem_lookup_iff, List.mem_map]
    constructor
    · rintro ⟨⟨k', v'⟩, hmem, heq⟩
      simp only [Prod.mk.injEq] at heq
      obtain ⟨rfl, rfl⟩ := heq
      exact hmem
    · intro hmem
      exact ⟨⟨k, v⟩, hmem, rfl⟩

/-- Every entry of a map is the first entry of some walk of the map. -/
theorem exists_isRangeOf_cons (m : GoMap) (k v : String) (h : m.lookup k = some v) :
    ∃ l, IsRangeOf ((k, v) :: l) m := by
  obtain ⟨l, hl⟩ := exists_isRangeOf m
  have hmem : (k, v) ∈ l := (hl.mem_iff k v).2 h
  obtain ⟨front, back, rfl⟩ := List.append_of_mem hmem
  exact ⟨front ++ back, hl.perm List.perm_middle.symm⟩

theorem extractYAML_order {rangeOrder₁ rangeOrder₂ : RangeOrder} (managedConfig : ConfigMap)
    (h₁ : IsRangeOf (rangeOrder₁ managedConfig.Data) managedConfig.Data)
    (h₂ : IsRangeOf (rangeOrder₂ managedConfig.Data) managedConfig.Data)
    (hsame : SingleValued managedConfig.Data) :
    extractYAML rangeOrder₁ managedConfig = extractYAML rangeOrder₂ managedConfig := by
  have hl₁ := h₁.length_eq
  have hl₂ := h₂.length_eq
  have hm₁ := h₁.mem_iff
  have hm₂ := h₂.mem_iff
  unfold extractYAML
  generalize rangeOrder₁ managedConfig.Data = l₁ at *
  generalize rangeOrder₂ managedConfig.Data = l₂ at *
  match l₁, l₂ with
  | [], [] => rfl
  | [], _ :: _ => simp at hl₁ hl₂; omega
  | _ :: _, [] => simp at hl₁ hl₂; omega
  | (k₁, v₁) :: t₁, (k₂, v₂) :: t₂ =>
    exact hsame k₁ k₂ v₁ v₂ ((hm₁ k₁ v₁).1 (List.mem_cons_self _ _))
      ((hm₂ k₂ v₂).1 (List.mem_cons_self _ _))

/-- If the fragment is the same under all walks, all entries hold the same value. -/
theorem singleValued_of_extractYAML_order (managedConfig : ConfigMap)
    (h : ∀ rangeOrder₁ rangeOrder₂ : RangeOrder,
      IsRangeOf (rangeOrder₁ managedConfig.Data) managedConfig.Data →
      IsRangeOf (rangeOrder₂ managedConfig.Data) managedConfig.Data →
      extractYAML rangeOrder₁ managedConfig = extractYAML rangeOrder₂ managedConfig) :
    SingleValued managedConfig.Data := by
  intro k₁ k₂ v₁ v₂ hk₁ hk₂
  obtain ⟨l₁, hl₁⟩ := exists_isRangeOf_cons managedConfig.Data k₁ v₁ hk₁
  obtain ⟨l₂, hl₂⟩ := exists_isRangeOf_cons managedConfig.Data k₂ v₂ hk₂
  exact h (fun _ => (k₁, v₁) :: l₁) (fun _ => (k₂, v₂) :: l₂) hl₁ hl₂

/-- A map whose walk holds the same value in every entry is single-valued. -/
theorem singleValued_of_walk {l : List (String × String)} {m : GoMap} (h : IsRangeOf l m)
    (hl : ∀ kv ∈ l, ∀ kv' ∈ l, kv.2 = kv'.2) : SingleValued m := by
  intro k₁ k₂ v₁ v₂ hk₁ hk₂
  exact hl (k₁, v₁) ((h.mem_iff k₁ v₁).2 hk₁) (k₂, v₂) ((h.mem_iff k₂ v₂).2 hk₂)

/-- A map with at most one key is single-valued. -/
theorem singleValued_of_len_le_one (m : GoMap) (h : m.len ≤ 1) : SingleValued m := by
  intro k₁ k₂ v₁ v₂ hk₁ hk₂
  have h₁ : k₁ ∈ m.keys := Finmap.mem_keys.2 (Finmap.mem_of_lookup_eq_some hk₁)
  have h₂ : k₂ ∈ m.keys := Finmap.mem_keys.2 (Finmap.mem_of_lookup_eq_some hk₂)
  have hk : k₁ = k₂ := Finset.card_le_one.1 h k₁ h₁ k₂ h₂
  subst hk
  rw [hk₁] at hk₂
  exact Option.some.inj hk₂

theorem GetTelemetryConfiguration_order {T : ExternalTypes} {rangeOrder₁ rangeOrder₂ : RangeOrder}
    (operatorConfig : Console T)
    (h₁ : IsRangeOf (rangeOrder₁ operatorConfig.Annotations) operatorConfig.Annotations)
    (h₂ : IsRangeOf (rangeOrder₂ operatorConfig.Annotations) operatorConfig.Annotations) :
    GetTelemetryConfiguration rangeOrder₁ operatorConfig
      = GetTelemetryConfiguration rangeOrder₂ operatorConfig := by
  apply Finmap.ext_lookup
  intro r
  apply Option.ext
  intro v
  simp only [Option.mem_def]
  rw [lookup_GetTelemetryConfiguration _ _ h₁, lookup_GetTelemetryConfiguration _ _ h₂]

/-- Claim C9, refuted as stated: on a managed mapping with the two keys `a` and `b` the fragment
taken by `extractYAML`, and with it the payload of `DefaultConfigMap`, depends on which
entry the walk visits first. -/
theorem DefaultConfigMap_order_counterexample :
    IsRangeOf (orderOf [("a", "x"), ("b", "y")] (managedWith [("a", "x"), ("b", "y")]).Data)
      (managedWith [("a", "x"), ("b", "y")]).Data ∧
    IsRangeOf (orderOf [("b", "y"), ("a", "x")] (managedWith [("a", "x"), ("b", "y")]).Data)
      (managedWith [("a", "x"), ("b", "y")]).Data ∧
    extractYAML (orderOf [("a", "x"), ("b", "y")]) (managedWith [("a", "x"), ("b", "y")]) = "x" ∧
    extractYAML (orderOf [("b", "y"), ("a", "x")]) (managedWith [("a", "x"), ("b", "y")]) = "y" ∧
    DefaultConfigMap (plainCollaborators renderEmpty mergeJoin) (orderOf [("a", "x"), ("b", "y")])
      (some (operatorWith [] "")) (some (consoleWith ""))
      (some (managedWith [("a", "x"), ("b", "y")])) (some (infrastructureWith "HighlyAvailable"))
      (some (routeWith "console.example.com")) false 0 [] ""
      = .ret (some { Name := "console-config",
                     Data := Finmap.singleton "console-config.yaml" "x" }, false, none) ∧
    DefaultConfigMap (plainCollaborators renderEmpty mergeJoin) (orderOf [("b", "y"), ("a", "x")])
      (some (operatorWith [] "")) (some (consoleWith ""))
      (some (managedWith [("a", "x"), ("b", "y")])) (some (infrastructureWith "HighlyAvailable"))
      (some (routeWith "console.example.com")) false 0 [] ""
      = .ret (some { Name := "console-config",
                     Data := Finmap.singleton "console-config.yaml" "y" }, false, none) := by
  decide

/-- Claim C9, amended: when all entries of the managed mapping hold the same text (as they
do when the mapping has at most one key), the fragment taken by `extractYAML` and the whole
result of `DefaultConfigMap` are the same whatever order the entries of the managed mapping
and of the operator config's annotations are visited in.  The condition is the weakest
one: a managed mapping whose fragment is the same under all walks holds the same text in
all its entries. -/
theorem DefaultConfigMap_deterministic {T : ExternalTypes} (D : Collaborators T)
    (rangeOrder₁ rangeOrder₂ : RangeOrder)
    (operatorConfig : Option (Console T)) (consoleConfig : Option ConfigConsole)
    (managedConfig : Option ConfigMap) (infrastructureConfig : Option Infrastructure)
    (activeConsoleRoute : Option Route) (useDefaultCAFile : Bool)
    (inactivityTimeoutSeconds : Int) (availablePlugins : List ConsolePlugin)
    (managedClusterConfigFile : String)
    (hann₁ : ∀ operator ∈ operatorConfig,
      IsRangeOf (rangeOrder₁ operator.Annotations) operator.Annotations)
    (hann₂ : ∀ operator ∈ operatorConfig,
      IsRangeOf (rangeOrder₂ operator.Annotations) operator.Annotations)
    (hdata₁ : ∀ managed ∈ managedConfig, IsRangeOf (rangeOrder₁ managed.Data) managed.Data)
    (hdata₂ : ∀ managed ∈ managedConfig, IsRangeOf (rangeOrder₂ managed.Data) managed.Data)
    (hsame : ∀ managed ∈ managedConfig, SingleValued managed.Data) :
    (∀ managed ∈ managedConfig,
      extractYAML rangeOrder₁ managed = extractYAML rangeOrder₂ managed) ∧
    DefaultConfigMap D rangeOrder₁ operatorConfig consoleConfig managedConfig
        infrastructureConfig activeConsoleRoute useDefaultCAFile inactivityTimeoutSeconds
        availablePlugins managedClusterConfigFile
      = DefaultConfigMap D rangeOrder₂ operatorConfig consoleConfig managedConfig
        infrastructureConfig activeConsoleRoute useDefaultCAFile inactivityTimeoutSeconds
        availablePlugins managedClusterConfigFile ∧
    (∀ managed : ConfigMap,
      (∀ order₁ order₂ : RangeOrder,
        IsRangeOf (order₁ managed.Data) managed.Data →
        IsRangeOf (order₂ managed.Data) managed.Data →
        extractYAML order₁ managed = extractYAML order₂ managed) ↔
      SingleValued managed.Data) ∧
    (∀ m : GoMap, m.len ≤ 1 → SingleValued m) := by
  have hex : ∀ managed ∈ managedConfig,
      extractYAML rangeOrder₁ managed = extractYAML rangeOrder₂ managed :=
    fun m hm => extractYAML_order m (hdata₁ m hm) (hdata₂ m hm) (hsame m hm)
  refine ⟨hex, ?_, fun managed => ⟨singleValued_of_extractYAML_order managed,
    fun hs o₁ o₂ h₁ h₂ => extractYAML_order managed h₁ h₂ hs⟩, singleValued_of_len_le_one⟩
  rcases activeConsoleRoute with _ | r
  · rfl
  rcases managedConfig with _ | mc
  · simp only [DefaultConfigMap]
  rcases consoleConfig with _ | cc
  · simp only [DefaultConfigMap]
  rcases operatorConfig with _ | oc
  · simp only [DefaultConfigMap]
  rcases infrastructureConfig with _ | ic
  · simp only [DefaultConfigMap]
  have e1 := hex mc rfl
  have e2 := GetTelemetryConfiguration_order oc (hann₁ oc rfl) (hann₂ oc rfl)
  simp only [DefaultConfigMap, userDefinedBuilderCalls, e1, e2]

/-- The amended claim C9 at a managed mapping with the two keys `a` and `b`, both holding
`x: 1`, and two annotations: the two walks visit both maps in opposite orders, take the
same fragment, and give the same result, whose payload holds the fragment. -/
theorem DefaultConfigMap_deterministic_witness :
    (orderOfTwo [("a", "x: 1\n"), ("b", "x: 1\n")]
        [("telemetry.console.openshift.io/FOO", "1"), ("other", "2")]
        (managedWith [("a", "x: 1\n"), ("b", "x: 1\n")]).Data
      = [("a", "x: 1\n"), ("b", "x: 1\n")] ∧
     orderOfTwo [("b", "x: 1\n"), ("a", "x: 1\n")]
        [("other", "2"), ("telemetry.console.openshift.io/FOO", "1")]
        (managedWith [("a", "x: 1\n"), ("b", "x: 1\n")]).Data
      = [("b", "x: 1\n"), ("a", "x: 1\n")]) ∧
    extractYAML (orderOfTwo [("a", "x: 1\n"), ("b", "x: 1\n")]
        [("telemetry.console.openshift.io/FOO", "1"), ("other", "2")])
        (managedWith [("a", "x: 1\n"), ("b", "x: 1\n")]) = "x: 1\n" ∧
    (extractYAML (orderOfTwo [("a", "x: 1\n"), ("b", "x: 1\n")]
        [("telemetry.console.openshift.io/FOO", "1"), ("other", "2")])
        (managedWith [("a", "x: 1\n"), ("b", "x: 1\n")])
      = extractYAML (orderOfTwo [("b", "x: 1\n"), ("a", "x: 1\n")]
        [("other", "2"), ("telemetry.console.openshift.io/FOO", "1")])
        (managedWith [("a", "x: 1\n"), ("b", "x: 1\n")])) ∧
    DefaultConfigMap (plainCollaborators renderHost mergeJoin)
        (orderOfTwo [("a", "x: 1\n"), ("b", "x: 1\n")]
          [("telemetry.console.openshift.io/FOO", "1"), ("other", "2")])
        (some (operatorWith [("telemetry.console.openshift.io/FOO", "1"), ("other", "2")] ""))
        (some (consoleWith "")) (some (managedWith [("a", "x: 1\n"), ("b", "x: 1\n")]))
        (some (infrastructureWith "HighlyAvailable")) (some (routeWith "console.example.com"))
        false 0 [] ""
      = .ret (some { Name := "console-config",
                     Data := Finmap.singleton "console-config.yaml"
                       ("host: console.example.com calls: 7\n" ++ "x: 1\n"
                         ++ "host: console.example.com calls: 21\n") }, false, none) ∧
    DefaultConfigMap (plainCollaborators renderHost mergeJoin)
        (orderOfTwo [("a", "x: 1\n"), ("b", "x: 1\n")]
          [("telemetry.console.openshift.io/FOO", "1"), ("other", "2")])
        (some (operatorWith [("telemetry.console.openshift.io/FOO", "1"), ("other", "2")] ""))
        (some (consoleWith "")) (some (managedWith [("a", "x: 1\n"), ("b", "x: 1\n")]))
        (some (infrastructureWith "HighlyAvailable")) (some (routeWith "console.example.com"))
        false 0 [] ""
      = DefaultConfigMap (plainCollaborators renderHost mergeJoin)
        (orderOfTwo [("b", "x: 1\n"), ("a", "x: 1\n")]
          [("other", "2"), ("telemetry.console.openshift.io/FOO", "1")])
        (some (operatorWith [("telemetry.console.openshift.io/FOO", "1"), ("other", "2")] ""))
        (some (consoleWith "")) (some (managedWith [("a", "x: 1\n"), ("b", "x: 1\n")]))
        (some (infrastructureWith "HighlyAvailable")) (some (routeWith "console.example.com"))
        false 0 [] "" :=
  have h := DefaultConfigMap_deterministic (plainCollaborators renderHost mergeJoin)
    (orderOfTwo [("a", "x: 1\n"), ("b", "x: 1\n")]
      [("telemetry.console.openshift.io/FOO", "1"), ("other", "2")])
    (orderOfTwo [("b", "x: 1\n"), ("a", "x: 1\n")]
      [("other", "2"), ("telemetry.console.openshift.io/FOO", "1")])
    (some (operatorWith [("telemetry.console.openshift.io/FOO", "1"), ("other", "2")] ""))
    (some (consoleWith "")) (some (managedWith [("a", "x: 1\n"), ("b", "x: 1\n")]))
    (some (infrastructureWith "HighlyAvailable")) (some (routeWith "console.example.com"))
    false 0 [] ""
    (by decide) (by decide) (by decide) (by decide)
    (fun managed hm =>
      singleValued_of_walk
        (l := [("a", "x: 1\n"), ("b", "x: 1\n")])
        (by cases hm; decide) (by decide))
  ⟨by decide, by decide, h.1 _ rfl, by decide, h.2.1⟩

end ConsoleOperator
